import Mathlib

/-!
Shallow embedding of `src/astrotable/matcher.py` (the built-in matchers
`ExactMatcher` and `SkyMatcher` of the pyastrotable repository), together
with theorems settling the specification claims about them.

Modelling conventions:
* a table column is a list of (value, mask-bit) pairs; the mask bits are
  meaningful only when the owning table is masked (astropy semantics);
* numpy fancy/boolean indexing and assignment are embedded by fallible
  operations that signal the shape errors numpy would raise;
* exceptions (`KeyError`, `ValueError`, `IndexError`, `AttributeError`,
  `TypeError`) become an `Except Exc` result, with only the kind kept;
* angles are rationals, understood in arcseconds where compared with the
  threshold; the astropy nearest-neighbour-on-sphere primitive
  `SkyCoord.match_to_catalog_sky` (an external collaborator of this code)
  is embedded as an argmin over an abstract separation function `sep`.
-/

deriving instance DecidableEq for Except

namespace AstroTable

/-- Kinds of Python exceptions the embedded code can raise. -/
inductive Exc where
  | keyError
  | valueError
  | indexError
  | attrError
  | typeError
  deriving DecidableEq

/-- A table column: one (value, mask-bit) entry per row. -/
structure Column (α : Type) where
  entries : List (α × Bool)
  deriving DecidableEq

/-- The values stored in a column. -/
def Column.values {α : Type} (c : Column α) : List α := c.entries.map Prod.fst

/-- The mask of a column (true = the entry is masked/missing). -/
def Column.maskBits {α : Type} (c : Column α) : List Bool := c.entries.map Prod.snd

/-- The number of rows of a column. -/
def Column.length {α : Type} (c : Column α) : Nat := c.entries.length

/-- A `Data` object as the matchers see it: a named table of length `N`
with named columns and a masked flag. -/
structure Dataset (α : Type) where
  name : String
  masked : Bool
  N : Nat
  cols : List (String × Column α)
  deriving DecidableEq

/-- The column names of a dataset (`datai.colnames`). -/
def Dataset.colnames {α : Type} (d : Dataset α) : List String := d.cols.map Prod.fst

/-- Column lookup, `datai.t[name]`. -/
def Dataset.getCol {α : Type} (d : Dataset α) (s : String) : Option (Column α) :=
  (d.cols.find? (fun p => p.1 == s)).map Prod.snd

/-- Well-formedness of a dataset: every column has the table's length. -/
def Dataset.WF {α : Type} (d : Dataset α) : Prop :=
  ∀ p ∈ d.cols, p.2.length = d.N

instance {α : Type} (d : Dataset α) : Decidable d.WF := by
  unfold Dataset.WF; infer_instance

/-- Elementwise boolean negation, `~mask`. -/
def notMask (m : List Bool) : List Bool := m.map not

/-- Boolean selection `xs[mask]` (keep entries where the mask bit is true),
assuming the lengths agree. -/
def boolGet {α : Type} : List α → List Bool → List α
  | x :: xs, m :: ms => if m then x :: boolGet xs ms else boolGet xs ms
  | _, _ => []

/-- numpy boolean indexing `xs[mask]`: an `IndexError` unless the mask has
the array's length. -/
def npBoolGet {α : Type} (xs : List α) (mask : List Bool) : Except Exc (List α) :=
  if xs.length = mask.length then .ok (boolGet xs mask) else .error .indexError

/-- Boolean assignment `base[mask] = vals` (replace entries where the mask
bit is true by successive elements of `vals`), assuming shapes agree. -/
def boolSet {β : Type} : List β → List Bool → List β → List β
  | b :: bs, m :: ms, vs =>
      if m then
        match vs with
        | v :: vs1 => v :: boolSet bs ms vs1
        | [] => b :: boolSet bs ms []
      else b :: boolSet bs ms vs
  | bs, _, _ => bs

/-- numpy boolean assignment `base[mask] = vals`: an error unless the mask
has the array's length and `vals` has one entry per true mask bit. -/
def npBoolSet {β : Type} (base : List β) (mask : List Bool) (vals : List β) :
    Except Exc (List β) :=
  if base.length = mask.length ∧ mask.count true = vals.length then
    .ok (boolSet base mask vals)
  else .error .valueError

/-- numpy integer-array indexing `xs[ids]`: an `IndexError` on any
out-of-bounds index. -/
def npGather {α : Type} (xs : List α) (ids : List Nat) : Except Exc (List α) :=
  match ids.mapM (fun i => xs.get? i) with
  | some ys => .ok ys
  | none => .error .indexError

/-- numpy elementwise or `a | b`: an error unless the lengths agree. -/
def npOr (a b : List Bool) : Except Exc (List Bool) :=
  if a.length = b.length then .ok (a.zipWith or b) else .error .valueError

/-- Modelled from the spec: the helper `find_idx` of `astrotable.utils` is
code of this repository that is not under `src/`. Per the spec (section
4.2), for each element of `v` it finds the position of the first exactly
equal element of `v1` (first occurrence tie-break), returning the
per-element position array and a found-flag array. Positions of elements
with no equal partner are unspecified (the caller masks them out). -/
def find_idx {α : Type} [DecidableEq α] (v1 v : List α) : List Nat × List Bool :=
  (v.map (fun x => (v1.findIdx (fun y => decide (y = x)), v1.any (fun y => decide (y = x))))).unzip

/-- A `value`/`value1` specification of `ExactMatcher`: a column name, a
raw array supplied by the caller, or (after resolution) a table column. -/
inductive ValueSpec (α : Type) where
  | name (s : String)
  | arr (xs : List α)
  | col (c : Column α)
  deriving DecidableEq

/-- A user-supplied specification (the constructor accepts a string or an
iterable of values; resolved columns only arise from a prior prepare). -/
def ValueSpec.fromUser {α : Type} : ValueSpec α → Prop
  | .name _ => True
  | .arr _ => True
  | .col _ => False

instance {α : Type} (v : ValueSpec α) : Decidable v.fromUser := by
  cases v <;> simp [ValueSpec.fromUser] <;> infer_instance

/-- The state of an `ExactMatcher` instance: the two value specifications
plus the resolved missing masks and compact index maps. -/
structure ExactMatcher (α : Type) where
  value : ValueSpec α
  value1 : ValueSpec α
  missing : List Bool
  missing1 : List Bool
  not_missing_id : List Nat
  not_missing_id1 : List Nat
  deriving DecidableEq

/-- A freshly constructed `ExactMatcher(value, value1)`: the resolved
fields do not exist yet (modelled as empty). -/
def ExactMatcher.mk0 {α : Type} (v v1 : ValueSpec α) : ExactMatcher α :=
  ⟨v, v1, [], [], [], []⟩

/-- Lines 39-42: `if type(self.value) is str: self.value = data.t[self.value]`,
a `KeyError` when the named column is absent. -/
def resolveValue {α : Type} (v : ValueSpec α) (d : Dataset α) : Except Exc (ValueSpec α) :=
  match v with
  | .name s =>
      match d.getCol s with
      | some c => .ok (.col c)
      | none => .error .keyError
  | v => .ok v

/-- Lines 46-49: the missing mask is the column mask when the table is
masked (`valuei.mask` — a raw array has no `.mask` attribute, hence an
`AttributeError` on a masked table), else all false. -/
def exactMissing0 {α : Type} (v : ValueSpec α) (d : Dataset α) : Except Exc (List Bool) :=
  if d.masked then
    match v with
    | .col c => .ok c.maskBits
    | .arr _ => .error .attrError
    | .name _ => .error .attrError
  else .ok (List.replicate d.N false)

/-- Lines 45-52, the loop body: the missing mask together with the compact
index map `np.arange(len(datai))[~missingi]`. -/
def exactMissingOf {α : Type} (v : ValueSpec α) (d : Dataset α) :
    Except Exc (List Bool × List Nat) := do
  let missingi ← exactMissing0 v d
  let nm ← npBoolGet (List.range d.N) (notMask missingi)
  return (missingi, nm)

/-- Embeds `ExactMatcher.get_values` (lines 38-55): resolve the string
specifications to columns, then compute both missing masks and compact
index maps, all cached on the instance. -/
def ExactMatcher.get_values {α : Type} (self : ExactMatcher α)
    (data data1 : Dataset α) : Except Exc (ExactMatcher α) := do
  let v ← resolveValue self.value data
  let v1 ← resolveValue self.value1 data1
  let r ← exactMissingOf v data
  let r1 ← exactMissingOf v1 data1
  return { value := v, value1 := v1,
           missing := r.1, missing1 := r1.1,
           not_missing_id := r.2, not_missing_id1 := r1.2 }

/-- The underlying value array of a specification as used by `match()`;
matching with an unresolved string specification is a type-error-kind
failure. -/
def specValues {α : Type} : ValueSpec α → Except Exc (List α)
  | .name _ => .error .typeError
  | .arr xs => .ok xs
  | .col c => .ok c.values

/-- Embeds `ExactMatcher.match` (lines 57-64): sentinel-filled `idx`,
all-false `matched`, `find_idx` on the non-missing subsets, then
`matched[~missing] = matched_nm` and
`idx[matched] = not_missing_id1[idx_nm[matched_nm]]`. -/
def ExactMatcher.doMatch {α : Type} [DecidableEq α] (self : ExactMatcher α) :
    Except Exc (List Int × List Bool) := do
  let v1 ← specValues self.value1
  let v ← specValues self.value
  let v1nm ← npBoolGet v1 (notMask self.missing1)
  let vnm ← npBoolGet v (notMask self.missing)
  let matched ← npBoolSet (List.replicate self.missing.length false)
    (notMask self.missing) (find_idx v1nm vnm).2
  let sel ← npBoolGet (find_idx v1nm vnm).1 (find_idx v1nm vnm).2
  let tgt ← npGather self.not_missing_id1 sel
  let idx ← npBoolSet (List.replicate self.missing.length (-(self.missing.length : Int) - 1))
    matched (tgt.map Int.ofNat)
  return (idx, matched)

/-- A `coord`/`coord1` specification of `SkyMatcher`: `None` (auto-detect),
a string naming the RA and Dec columns (stored after the split at the dash), or a
precomputed `SkyCoord`, embedded as its list of points. -/
inductive CoordSpec where
  | auto
  | colPair (raN decN : String)
  | sky (pts : List (ℚ × ℚ))
  deriving DecidableEq

/-- The state of a `SkyMatcher` instance: threshold (arcsec), the two
coordinate specifications, and the resolved missing masks and compact index
maps. The `unit`/`unit1` arguments play no role in the embedded paths and
are omitted. -/
structure SkyMatcher where
  thres : ℚ
  coord : CoordSpec
  coord1 : CoordSpec
  ra_name : Option String
  dec_name : Option String
  missing : List Bool
  missing1 : List Bool
  not_missing_id : List Nat
  not_missing_id1 : List Nat
  deriving DecidableEq

/-- A freshly constructed `SkyMatcher(thres, coord, coord1)`: the resolved
fields do not exist yet (modelled as empty/none). -/
def SkyMatcher.mk0 (thres : ℚ) (c c1 : CoordSpec) : SkyMatcher :=
  ⟨thres, c, c1, none, none, [], [], [], []⟩

/-- Line 118: the RA auto-detection candidates. -/
def ra_names : List String := ["ra", "RA"]

/-- Line 119: the Dec auto-detection candidates. -/
def dec_names : List String := ["DEC", "Dec", "dec"]

/-- Result of resolving one coordinate specification against one dataset
(one pass of the loop body of `SkyMatcher.get_values`). -/
structure ResolvedCoord where
  pts : List (ℚ × ℚ)
  ra_name : Option String
  dec_name : Option String
  missing : List Bool
  not_missing_id : List Nat
  deriving DecidableEq

/-- Lines 145-149: the combined missing mask, `ra.mask | dec.mask` for
masked tables, else all false. -/
def skyMissing0 (ra dec : Column ℚ) (datai : Dataset ℚ) : Except Exc (List Bool) :=
  if datai.masked then npOr ra.maskBits dec.maskBits
  else .ok (List.replicate datai.N false)

/-- Lines 145-159 applied to two resolved columns: the compact index map
`np.arange(len(datai))[~missingi]` and the coordinate object
`SkyCoord(ra=ra[~missingi], dec=dec[~missingi], ...)` as a point list. -/
def skyFromCols (rn dn : String) (ra dec : Column ℚ) (datai : Dataset ℚ) :
    Except Exc ResolvedCoord := do
  let missingi ← skyMissing0 ra dec datai
  let nm ← npBoolGet (List.range datai.N) (notMask missingi)
  let ravals ← npBoolGet ra.values (notMask missingi)
  let decvals ← npBoolGet dec.values (notMask missingi)
  return ⟨ravals.zip decvals, some rn, some dn, missingi, nm⟩

/-- Lines 126-135: `np.isin(candidates, colnames)` followed by taking the
first present candidate, `candidates[np.where(found)][0]`; a `KeyError`
when no candidate column is present. -/
def pickFirst (cands : List String) (datai : Dataset ℚ) : Except Exc String :=
  match cands.filter (fun n => datai.colnames.contains n) with
  | [] => .error .keyError
  | n :: _ => .ok n

/-- Column lookup `datai.t[name]` as a fallible operation (`KeyError` when
absent). -/
def getColE {α : Type} (d : Dataset α) (s : String) : Except Exc (Column α) :=
  match d.getCol s with
  | some c => .ok c
  | none => .error .keyError

/-- Lines 125-138, the auto-detection branch (`coordi is None`): find the
RA name among ra_names and the Dec name among dec_names
(in those orders), then resolve the columns and build the coordinates. -/
def skyResolveAuto (datai : Dataset ℚ) : Except Exc ResolvedCoord := do
  let rn ← pickFirst ra_names datai
  let ra ← getColE datai rn
  let dn ← pickFirst dec_names datai
  let dec ← getColE datai dn
  skyFromCols rn dn ra dec datai

/-- Lines 140-143, the string branch: the RA and Dec column names come
from splitting the specification at the dash, then the columns are looked up
(`KeyError` when absent). -/
def skyResolveCols (rn dn : String) (datai : Dataset ℚ) : Except Exc ResolvedCoord := do
  let ra ← getColE datai rn
  let dec ← getColE datai dn
  skyFromCols rn dn ra dec datai

/-- Lines 163-168, the precomputed-`SkyCoord` branch: the coordinate object
is taken as is, the missing mask is all false and the compact index map is
`np.arange(len(datai))` — whether or not the table is masked. -/
def skyResolveSky (pts : List (ℚ × ℚ)) (datai : Dataset ℚ) : Except Exc ResolvedCoord := do
  let nm ← npBoolGet (List.range datai.N) (notMask (List.replicate datai.N false))
  return ⟨pts, none, none, List.replicate datai.N false, nm⟩

/-- Lines 123-175, one pass of the loop body of `SkyMatcher.get_values`:
auto-detect or look up the RA/Dec columns (a `KeyError` when absent), or
accept a precomputed `SkyCoord`, and compute the missing mask and compact
index map. -/
def skyResolve (coordi : CoordSpec) (datai : Dataset ℚ) : Except Exc ResolvedCoord :=
  match coordi with
  | .auto => skyResolveAuto datai
  | .colPair rn dn => skyResolveCols rn dn datai
  | .sky pts => skyResolveSky pts datai

/-- Embeds `SkyMatcher.get_values` (lines 115-179): resolve both
coordinate specifications (the loop assigns `self.ra_name`/`self.dec_name`
on each pass, so the second pass wins) and cache the resolved coordinates,
missing masks and compact index maps on the instance. -/
def SkyMatcher.get_values (self : SkyMatcher) (data data1 : Dataset ℚ) :
    Except Exc SkyMatcher := do
  let r ← skyResolve self.coord data
  let r1 ← skyResolve self.coord1 data1
  return { self with
           coord := .sky r.pts, coord1 := .sky r1.pts,
           ra_name := r1.ra_name, dec_name := r1.dec_name,
           missing := r.missing, missing1 := r1.missing,
           not_missing_id := r.not_missing_id, not_missing_id1 := r1.not_missing_id }

/-- Running minimum pass for the nearest-neighbour search: `i` is the index
of the next candidate, `best` the best (index, separation) so far; a
strictly smaller separation replaces the best, so the first minimum wins. -/
def argminAux (sep : ℚ × ℚ → ℚ × ℚ → ℚ) (p : ℚ × ℚ) :
    Nat → Nat × ℚ → List (ℚ × ℚ) → Nat × ℚ
  | _, best, [] => best
  | i, best, q :: qs =>
      argminAux sep p (i + 1) (if sep p q < best.2 then (i, sep p q) else best) qs

/-- The external astropy primitive `SkyCoord.match_to_catalog_sky` for a
single point, over an abstract separation function `sep`: the index of the
nearest catalog point and its separation. Only meaningful for a nonempty
catalog (astropy raises on an empty one). -/
def argminSep (sep : ℚ × ℚ → ℚ × ℚ → ℚ) (p : ℚ × ℚ) : List (ℚ × ℚ) → Nat × ℚ
  | [] => (0, 0)
  | q :: qs => argminAux sep p 1 (0, sep p q) qs

/-- The point list of a coordinate specification; calling a coordinate
method on an unresolved specification (`None` or a string) is an
attribute-error-kind failure, as in Python. -/
def coordPts (c : CoordSpec) : Except Exc (List (ℚ × ℚ)) :=
  match c with
  | .sky pts => .ok pts
  | _ => .error .attrError

/-- The pair `(idx_nm, d2d)` of `coord.match_to_catalog_sky(coord1)` (line
185): for every point of `c`, the index of and separation to its nearest
neighbour in the catalog `c1`; astropy raises a `ValueError`-kind condition
on an empty catalog. -/
def matchToCatalogSky (sep : ℚ × ℚ → ℚ × ℚ → ℚ) (c c1 : List (ℚ × ℚ)) :
    Except Exc (List Nat × List ℚ) :=
  if c1.isEmpty then .error .valueError
  else
    .ok ((c.map (fun p => argminSep sep p c1)).map Prod.fst,
         (c.map (fun p => argminSep sep p c1)).map Prod.snd)

/-- Embeds `SkyMatcher.match` (lines 181-188): sentinel-filled `idx`,
all-false `matched`, nearest-neighbour search of `coord` against `coord1`,
then `idx[~missing] = not_missing_id1[idx_nm]` and
`matched[~missing] = d2d.arcsec < thres`. -/
def SkyMatcher.doMatch (sep : ℚ × ℚ → ℚ × ℚ → ℚ) (self : SkyMatcher) :
    Except Exc (List Int × List Bool) := do
  let c ← coordPts self.coord
  let c1 ← coordPts self.coord1
  let nn ← matchToCatalogSky sep c c1
  let tgt ← npGather self.not_missing_id1 nn.1
  let idx ← npBoolSet (List.replicate self.missing.length (-(self.missing.length : Int) - 1))
    (notMask self.missing) (tgt.map Int.ofNat)
  let matched ← npBoolSet (List.replicate self.missing.length false)
    (notMask self.missing) (nn.2.map (fun d => decide (d < self.thres)))
  return (idx, matched)

/-- Embeds `SkyMatcher.explore` (lines 190-215): re-runs `get_values` on
the given datasets (overwriting the instance state), recomputes the
nearest-neighbour separations, and returns them; the histogram plot is an
external matplotlib side effect outside the model. The returned pair is
the new instance state together with `d2d.arcsec`. -/
def SkyMatcher.explore (sep : ℚ × ℚ → ℚ × ℚ → ℚ) (self : SkyMatcher)
    (data data1 : Dataset ℚ) : Except Exc (SkyMatcher × List ℚ) := do
  let s ← self.get_values data data1
  let c ← coordPts s.coord
  let c1 ← coordPts s.coord1
  let nn ← matchToCatalogSky sep c c1
  return (s, nn.2)

/-! Basic lemmas about the numpy-style primitives. -/

theorem boolGet_length {α : Type} :
    ∀ (xs : List α) (m : List Bool), xs.length = m.length →
      (boolGet xs m).length = m.count true
  | [], [], _ => by simp [boolGet]
  | x :: xs, mm :: ms, h => by
      have h2 : xs.length = ms.length := by simpa using h
      cases mm <;> simp [boolGet, boolGet_length xs ms h2, List.count_cons]

theorem mem_boolGet {α : Type} :
    ∀ {xs : List α} {m : List Bool} {x : α}, x ∈ boolGet xs m → x ∈ xs
  | [], _, _, h => by simp [boolGet] at h
  | _ :: _, [], _, h => by simp [boolGet] at h
  | x :: xs, mm :: ms, y, h => by
      cases mm with
      | true =>
          simp only [boolGet, if_true] at h
          rcases List.mem_cons.mp h with rfl | h2
          · exact List.mem_cons_self y xs
          · exact List.mem_cons_of_mem _ (mem_boolGet h2)
      | false =>
          simp only [boolGet, Bool.false_eq_true, if_false] at h
          exact List.mem_cons_of_mem _ (mem_boolGet h)

theorem boolGet_all_true {α : Type} :
    ∀ (xs : List α), boolGet xs (List.replicate xs.length true) = xs
  | [] => by simp [boolGet]
  | x :: xs => by simp [boolGet, List.replicate, boolGet_all_true xs]

theorem boolSet_length {β : Type} :
    ∀ (b : List β) (m : List Bool) (v : List β), (boolSet b m v).length = b.length
  | [], _, _ => by cases ‹List Bool› <;> simp [boolSet]
  | _ :: _, [], _ => by simp [boolSet]
  | b :: bs, mm :: ms, vs => by
      cases mm with
      | true =>
          cases vs with
          | nil => simp [boolSet, boolSet_length bs ms []]
          | cons v vs1 => simp [boolSet, boolSet_length bs ms vs1]
      | false => simp [boolSet, boolSet_length bs ms vs]

theorem boolSet_getD_of_false {β : Type} (d : β) :
    ∀ (b : List β) (m : List Bool) (v : List β) (i : Nat),
      m.getD i false = false → (boolSet b m v).getD i d = b.getD i d
  | [], m, v, i, _ => by cases m <;> simp [boolSet]
  | _ :: _, [], _, _, _ => by simp [boolSet]
  | b :: bs, mm :: ms, vs, 0, hm => by
      simp only [List.getD_cons_zero] at hm ⊢
      cases mm with
      | true => simp at hm
      | false => simp [boolSet]
  | b :: bs, mm :: ms, vs, i + 1, hm => by
      simp only [List.getD_cons_succ] at hm ⊢
      cases mm with
      | true =>
          cases vs with
          | nil => simpa [boolSet] using boolSet_getD_of_false d bs ms [] i hm
          | cons v vs1 => simpa [boolSet] using boolSet_getD_of_false d bs ms vs1 i hm
      | false => simpa [boolSet] using boolSet_getD_of_false d bs ms vs i hm

theorem count_take_lt :
    ∀ (m : List Bool) (i : Nat), m.getD i false = true →
      (m.take i).count true < m.count true
  | [], i, h => by simp at h
  | mm :: ms, 0, h => by
      simp only [List.getD_cons_zero] at h
      subst h
      simp [List.count_cons]
  | mm :: ms, i + 1, h => by
      simp only [List.getD_cons_succ] at h
      have := count_take_lt ms i h
      cases mm <;> simp [List.count_cons] <;> omega

theorem boolSet_getD_of_true {β : Type} (d : β) :
    ∀ (b : List β) (m : List Bool) (v : List β) (i : Nat),
      m.getD i false = true → m.count true = v.length → b.length = m.length →
      (boolSet b m v).getD i d = v.getD ((m.take i).count true) d
  | [], m, v, i, hm, hc, hl => by
      cases m with
      | nil => simp at hm
      | cons mm ms => simp at hl
  | _ :: _, [], _, _, hm, _, _ => by simp at hm
  | b :: bs, mm :: ms, vs, 0, hm, hc, hl => by
      simp only [List.getD_cons_zero] at hm
      subst hm
      cases vs with
      | nil => simp [List.count_cons] at hc
      | cons v vs1 => simp [boolSet]
  | b :: bs, mm :: ms, vs, i + 1, hm, hc, hl => by
      simp only [List.getD_cons_succ] at hm
      have hl2 : bs.length = ms.length := by simpa using hl
      cases mm with
      | true =>
          cases vs with
          | nil => simp [List.count_cons] at hc
          | cons v vs1 =>
              have hc2 : ms.count true = vs1.length := by
                simp [List.count_cons] at hc; omega
              simpa [boolSet, List.count_cons] using
                boolSet_getD_of_true d bs ms vs1 i hm hc2 hl2
      | false =>
          have hc2 : ms.count true = vs.length := by
            simpa [List.count_cons] using hc
          simpa [boolSet, List.count_cons] using
            boolSet_getD_of_true d bs ms vs i hm hc2 hl2

theorem npBoolGet_ok {α : Type} {xs : List α} {m : List Bool} {ys : List α}
    (h : npBoolGet xs m = .ok ys) : xs.length = m.length ∧ ys = boolGet xs m := by
  unfold npBoolGet at h
  by_cases hl : xs.length = m.length
  · simp [hl] at h; exact ⟨hl, h.symm⟩
  · simp [hl] at h

theorem npBoolSet_ok {β : Type} {b : List β} {m : List Bool} {v r : List β}
    (h : npBoolSet b m v = .ok r) :
    b.length = m.length ∧ m.count true = v.length ∧ r = boolSet b m v := by
  unfold npBoolSet at h
  by_cases hl : b.length = m.length ∧ m.count true = v.length
  · simp [hl.1, hl.2] at h; exact ⟨hl.1, hl.2, h.symm⟩
  · rw [if_neg hl] at h; simp at h

theorem mapM_get_some {α : Type} :
    ∀ {ids : List Nat} {xs ys : List α},
      List.mapM (fun i => xs.get? i) ids = some ys →
      ys.length = ids.length ∧ ∀ y ∈ ys, y ∈ xs
  | [], xs, ys, h => by
      simp only [List.mapM_nil, Option.pure_def, Option.some.injEq] at h
      simp [← h]
  | i :: ids, xs, ys, h => by
      simp only [List.mapM_cons, Option.pure_def, Option.bind_eq_bind,
        Option.bind_eq_some, Option.some.injEq] at h
      obtain ⟨y0, hy0, ys0, hys0, hcons⟩ := h
      obtain ⟨hlen, hmem⟩ := mapM_get_some hys0
      subst hcons
      refine ⟨by simp [hlen], ?_⟩
      intro y hy
      rcases List.mem_cons.mp hy with rfl | hy
      · exact List.get?_mem hy0
      · exact hmem y hy

theorem npGather_ok {α : Type} {ids : List Nat} {xs ys : List α}
    (h : npGather xs ids = .ok ys) :
    ys.length = ids.length ∧ ∀ y ∈ ys, y ∈ xs := by
  unfold npGather at h
  cases hm : List.mapM (fun i => xs.get? i) ids with
  | none => rw [hm] at h; simp at h
  | some zs =>
      rw [hm] at h
      simp only [Except.ok.injEq] at h
      subst h
      exact mapM_get_some hm

theorem npOr_ok {a b c : List Bool} (h : npOr a b = .ok c) :
    a.length = b.length ∧ c = a.zipWith or b := by
  unfold npOr at h
  by_cases hl : a.length = b.length
  · simp [hl] at h; exact ⟨hl, h.symm⟩
  · simp [hl] at h

theorem notMask_length (m : List Bool) : (notMask m).length = m.length := by
  simp [notMask]

theorem notMask_getD (m : List Bool) (i : Nat) (hi : i < m.length) :
    (notMask m).getD i false = not (m.getD i false) := by
  unfold notMask
  rw [List.getD_eq_getElem _ _ (by simpa using hi), List.getD_eq_getElem _ _ hi]
  simp

theorem notMask_take_count (m : List Bool) (i : Nat) :
    ((notMask m).take i).count true = (m.take i).count false := by
  unfold notMask
  rw [← List.map_take]
  induction (m.take i) with
  | nil => simp
  | cons x l ih => cases x <;> simp [List.count_cons, ih]

theorem notMask_count (m : List Bool) :
    (notMask m).count true = m.count false := by
  unfold notMask
  induction m with
  | nil => simp
  | cons x l ih => cases x <;> simp [List.count_cons, ih]

/-! Lemmas about the nearest-neighbour argmin. -/

theorem argminAux_le (sep : ℚ × ℚ → ℚ × ℚ → ℚ) (p : ℚ × ℚ) :
    ∀ (l : List (ℚ × ℚ)) (i : Nat) (best : Nat × ℚ),
      (argminAux sep p i best l).2 ≤ best.2 ∧
      ∀ q ∈ l, (argminAux sep p i best l).2 ≤ sep p q
  | [], i, best => by simp [argminAux]
  | q :: qs, i, best => by
      simp only [argminAux]
      by_cases hq : sep p q < best.2
      · rw [if_pos hq]
        obtain ⟨h1, h2⟩ := argminAux_le sep p qs (i + 1) (i, sep p q)
        exact ⟨le_trans h1 (le_of_lt hq), by
          intro r hr
          rcases List.mem_cons.mp hr with rfl | hr2
          · exact h1
          · exact h2 r hr2⟩
      · rw [if_neg hq]
        obtain ⟨h1, h2⟩ := argminAux_le sep p qs (i + 1) best
        exact ⟨h1, by
          intro r hr
          rcases List.mem_cons.mp hr with rfl | hr2
          · exact le_trans h1 (le_of_not_lt hq)
          · exact h2 r hr2⟩

theorem argminAux_achieved (sep : ℚ × ℚ → ℚ × ℚ → ℚ) (p : ℚ × ℚ) :
    ∀ (l : List (ℚ × ℚ)) (i : Nat) (best : Nat × ℚ),
      (argminAux sep p i best l).2 = best.2 ∨
      ∃ q ∈ l, (argminAux sep p i best l).2 = sep p q
  | [], i, best => by simp [argminAux]
  | q :: qs, i, best => by
      simp only [argminAux]
      by_cases hq : sep p q < best.2
      · rw [if_pos hq]
        rcases argminAux_achieved sep p qs (i + 1) (i, sep p q) with h | ⟨r, hr, h⟩
        · exact Or.inr ⟨q, List.mem_cons_self q qs, h⟩
        · exact Or.inr ⟨r, List.mem_cons_of_mem _ hr, h⟩
      · rw [if_neg hq]
        rcases argminAux_achieved sep p qs (i + 1) best with h | ⟨r, hr, h⟩
        · exact Or.inl h
        · exact Or.inr ⟨r, List.mem_cons_of_mem _ hr, h⟩

theorem argminAux_idx_lt (sep : ℚ × ℚ → ℚ × ℚ → ℚ) (p : ℚ × ℚ) :
    ∀ (l : List (ℚ × ℚ)) (i : Nat) (best : Nat × ℚ), best.1 < i →
      (argminAux sep p i best l).1 < i + l.length
  | [], i, best, h => by simpa [argminAux] using h
  | q :: qs, i, best, h => by
      simp only [argminAux]
      have hstep : (if sep p q < best.2 then (i, sep p q) else best).1 < i + 1 := by
        by_cases hq : sep p q < best.2
        · simp [hq]
        · simp [hq]; omega
      have := argminAux_idx_lt sep p qs (i + 1) _ hstep
      rw [List.length_cons]
      omega

theorem argminSep_le (sep : ℚ × ℚ → ℚ × ℚ → ℚ) (p q : ℚ × ℚ) :
    ∀ (l : List (ℚ × ℚ)), q ∈ l → (argminSep sep p l).2 ≤ sep p q
  | [], hq => by simp at hq
  | q0 :: qs, hq => by
      simp only [argminSep]
      obtain ⟨h1, h2⟩ := argminAux_le sep p qs 1 (0, sep p q0)
      rcases List.mem_cons.mp hq with rfl | hq2
      · exact h1
      · exact h2 q hq2

theorem argminSep_achieved (sep : ℚ × ℚ → ℚ × ℚ → ℚ) (p : ℚ × ℚ)
    (l : List (ℚ × ℚ)) (h : l ≠ []) :
    ∃ q ∈ l, (argminSep sep p l).2 = sep p q := by
  cases l with
  | nil => exact absurd rfl h
  | cons q0 qs =>
      simp only [argminSep]
      rcases argminAux_achieved sep p qs 1 (0, sep p q0) with h1 | ⟨r, hr, h1⟩
      · exact ⟨q0, List.mem_cons_self q0 qs, h1⟩
      · exact ⟨r, List.mem_cons_of_mem _ hr, h1⟩

theorem argminSep_lt_iff (sep : ℚ × ℚ → ℚ × ℚ → ℚ) (p : ℚ × ℚ)
    (l : List (ℚ × ℚ)) (h : l ≠ []) (t : ℚ) :
    (argminSep sep p l).2 < t ↔ ∃ q ∈ l, sep p q < t := by
  constructor
  · intro hlt
    obtain ⟨q, hq, he⟩ := argminSep_achieved sep p l h
    exact ⟨q, hq, he ▸ hlt⟩
  · rintro ⟨q, hq, hlt⟩
    exact lt_of_le_of_lt (argminSep_le sep p q l hq) hlt

theorem argminSep_idx_lt (sep : ℚ × ℚ → ℚ × ℚ → ℚ) (p : ℚ × ℚ)
    (l : List (ℚ × ℚ)) (h : l ≠ []) : (argminSep sep p l).1 < l.length := by
  cases l with
  | nil => exact absurd rfl h
  | cons q0 qs =>
      simp only [argminSep]
      have := argminAux_idx_lt sep p qs 1 (0, sep p q0) (by norm_num)
      simpa [Nat.add_comm] using this

/-! Inversion lemmas for the Except-monad do-chains of the embedded methods. -/

theorem except_bind_ok {ε α β : Type} (a : α) (f : α → Except ε β) :
    (Except.ok a >>= f) = f a := rfl

theorem except_bind_error {ε α β : Type} (e : ε) (f : α → Except ε β) :
    ((Except.error e : Except ε α) >>= f) = Except.error e := rfl

theorem exact_get_values_inv {α : Type} {s₀ s : ExactMatcher α} {d d1 : Dataset α}
    (h : s₀.get_values d d1 = .ok s) :
    ∃ v v1 r r1,
      resolveValue s₀.value d = .ok v ∧ resolveValue s₀.value1 d1 = .ok v1 ∧
      exactMissingOf v d = .ok r ∧ exactMissingOf v1 d1 = .ok r1 ∧
      s = ⟨v, v1, r.1, r1.1, r.2, r1.2⟩ := by
  unfold ExactMatcher.get_values at h
  cases h1 : resolveValue s₀.value d with
  | error e => rw [h1, except_bind_error] at h; exact absurd h (by simp)
  | ok v =>
  rw [h1, except_bind_ok] at h
  cases h2 : resolveValue s₀.value1 d1 with
  | error e => rw [h2, except_bind_error] at h; exact absurd h (by simp)
  | ok v1 =>
  rw [h2, except_bind_ok] at h
  cases h3 : exactMissingOf v d with
  | error e => rw [h3, except_bind_error] at h; exact absurd h (by simp)
  | ok r =>
  rw [h3, except_bind_ok] at h
  cases h4 : exactMissingOf v1 d1 with
  | error e => rw [h4, except_bind_error] at h; exact absurd h (by simp)
  | ok r1 =>
  rw [h4, except_bind_ok] at h
  simp only [pure, Except.pure, Except.ok.injEq] at h
  exact ⟨v, v1, r, r1, rfl, rfl, h3, h4, h.symm⟩

theorem exactMissing0_inv {α : Type} {v : ValueSpec α} {d : Dataset α} {m : List Bool}
    (h : exactMissing0 v d = .ok m) :
    (d.masked = false → m = List.replicate d.N false) ∧
    (d.masked = true → ∃ c, v = .col c ∧ m = c.maskBits) := by
  unfold exactMissing0 at h
  cases hm : d.masked with
  | false =>
      rw [hm, if_neg Bool.false_ne_true] at h
      simp only [Except.ok.injEq] at h
      exact ⟨fun _ => h.symm, fun hc => absurd hc (by simp)⟩
  | true =>
      rw [hm, if_pos rfl] at h
      cases v with
      | name s =>
          have h2 : (Except.error Exc.attrError : Except Exc (List Bool)) = .ok m := h
          exact absurd h2 (by simp)
      | arr xs =>
          have h2 : (Except.error Exc.attrError : Except Exc (List Bool)) = .ok m := h
          exact absurd h2 (by simp)
      | col c =>
          have h2 : (Except.ok c.maskBits : Except Exc (List Bool)) = .ok m := h
          simp only [Except.ok.injEq] at h2
          exact ⟨fun hc => absurd hc (by simp), fun _ => ⟨c, rfl, h2.symm⟩⟩

theorem exactMissingOf_inv {α : Type} {v : ValueSpec α} {d : Dataset α}
    {r : List Bool × List Nat} (h : exactMissingOf v d = .ok r) :
    r.1.length = d.N ∧ r.2 = boolGet (List.range d.N) (notMask r.1) ∧
    exactMissing0 v d = .ok r.1 := by
  unfold exactMissingOf at h
  cases h1 : exactMissing0 v d with
  | error e => rw [h1, except_bind_error] at h; exact absurd h (by simp)
  | ok m =>
  rw [h1, except_bind_ok] at h
  cases h2 : npBoolGet (List.range d.N) (notMask m) with
  | error e => rw [h2, except_bind_error] at h; exact absurd h (by simp)
  | ok nm =>
  rw [h2, except_bind_ok] at h
  obtain ⟨hl, hb⟩ := npBoolGet_ok h2
  simp only [pure, Except.pure, Except.ok.injEq] at h
  subst h
  exact ⟨by simpa [notMask_length] using hl.symm, hb, rfl⟩

theorem exact_doMatch_inv {α : Type} [DecidableEq α] {s : ExactMatcher α}
    {idx : List Int} {matched : List Bool}
    (h : s.doMatch = .ok (idx, matched)) :
    ∃ (v v1 : List α) (tgt : List Nat),
      specValues s.value = .ok v ∧ specValues s.value1 = .ok v1 ∧
      matched = boolSet (List.replicate s.missing.length false) (notMask s.missing)
        (find_idx (boolGet v1 (notMask s.missing1)) (boolGet v (notMask s.missing))).2 ∧
      (notMask s.missing).count true =
        (find_idx (boolGet v1 (notMask s.missing1)) (boolGet v (notMask s.missing))).2.length ∧
      (∀ y ∈ tgt, y ∈ s.not_missing_id1) ∧
      matched.count true = tgt.length ∧
      idx = boolSet (List.replicate s.missing.length (-(s.missing.length : Int) - 1))
        matched (tgt.map Int.ofNat) := by
  unfold ExactMatcher.doMatch at h
  cases h1 : specValues s.value1 with
  | error e => rw [h1, except_bind_error] at h; exact absurd h (by simp)
  | ok v1 =>
  rw [h1, except_bind_ok] at h
  cases h2 : specValues s.value with
  | error e => rw [h2, except_bind_error] at h; exact absurd h (by simp)
  | ok v =>
  rw [h2, except_bind_ok] at h
  cases h3 : npBoolGet v1 (notMask s.missing1) with
  | error e => rw [h3, except_bind_error] at h; exact absurd h (by simp)
  | ok v1nm =>
  rw [h3, except_bind_ok] at h
  cases h4 : npBoolGet v (notMask s.missing) with
  | error e => rw [h4, except_bind_error] at h; exact absurd h (by simp)
  | ok vnm =>
  rw [h4, except_bind_ok] at h
  cases h5 : npBoolSet (List.replicate s.missing.length false) (notMask s.missing)
      (find_idx v1nm vnm).2 with
  | error e => rw [h5, except_bind_error] at h; exact absurd h (by simp)
  | ok m2 =>
  rw [h5, except_bind_ok] at h
  cases h6 : npBoolGet (find_idx v1nm vnm).1 (find_idx v1nm vnm).2 with
  | error e => rw [h6, except_bind_error] at h; exact absurd h (by simp)
  | ok sel =>
  rw [h6, except_bind_ok] at h
  cases h7 : npGather s.not_missing_id1 sel with
  | error e => rw [h7, except_bind_error] at h; exact absurd h (by simp)
  | ok tgt =>
  rw [h7, except_bind_ok] at h
  cases h8 : npBoolSet (List.replicate s.missing.length (-(s.missing.length : Int) - 1))
      m2 (tgt.map Int.ofNat) with
  | error e => rw [h8, except_bind_error] at h; exact absurd h (by simp)
  | ok idx2 =>
  rw [h8, except_bind_ok] at h
  simp only [pure, Except.pure, Except.ok.injEq, Prod.mk.injEq] at h
  obtain ⟨hidx, hmatched⟩ := h
  subst hidx; subst hmatched
  obtain ⟨hm1, hm2, hm3⟩ := npBoolSet_ok h5
  obtain ⟨hv1l, hv1⟩ := npBoolGet_ok h3
  obtain ⟨hvl, hv⟩ := npBoolGet_ok h4
  obtain ⟨hi1, hi2, hi3⟩ := npBoolSet_ok h8
  obtain ⟨htl, htm⟩ := npGather_ok h7
  subst hv1; subst hv
  refine ⟨v, v1, tgt, rfl, rfl, hm3, hm2, htm, ?_, hi3⟩
  rw [hi2]
  simp

theorem coordPts_ok {c : CoordSpec} {pts : List (ℚ × ℚ)}
    (h : coordPts c = .ok pts) : c = .sky pts := by
  cases c with
  | auto => exact absurd h (by simp [coordPts])
  | colPair rn dn => exact absurd h (by simp [coordPts])
  | sky q => simpa [coordPts] using h

theorem matchToCatalogSky_ok {sep : ℚ × ℚ → ℚ × ℚ → ℚ} {c c1 : List (ℚ × ℚ)}
    {nn : List Nat × List ℚ} (h : matchToCatalogSky sep c c1 = .ok nn) :
    c1 ≠ [] ∧
    nn.1 = (c.map (fun p => argminSep sep p c1)).map Prod.fst ∧
    nn.2 = (c.map (fun p => argminSep sep p c1)).map Prod.snd := by
  unfold matchToCatalogSky at h
  cases he : c1.isEmpty with
  | true => rw [he, if_pos rfl] at h; exact absurd h (by simp)
  | false =>
      rw [he, if_neg Bool.false_ne_true] at h
      simp only [Except.ok.injEq] at h
      refine ⟨by simpa [List.isEmpty_iff] using he, ?_, ?_⟩
      · rw [← h]
      · rw [← h]

theorem skyMissing0_inv {ra dec : Column ℚ} {d : Dataset ℚ} {m : List Bool}
    (h : skyMissing0 ra dec d = .ok m) :
    (d.masked = false → m = List.replicate d.N false) ∧
    (d.masked = true →
      m = ra.maskBits.zipWith or dec.maskBits ∧
      ra.maskBits.length = dec.maskBits.length) := by
  unfold skyMissing0 at h
  cases hm : d.masked with
  | false =>
      rw [hm, if_neg Bool.false_ne_true] at h
      simp only [Except.ok.injEq] at h
      exact ⟨fun _ => h.symm, fun hc => absurd hc (by simp)⟩
  | true =>
      rw [hm, if_pos rfl] at h
      obtain ⟨hl, hz⟩ := npOr_ok h
      exact ⟨fun hc => absurd hc (by simp), fun _ => ⟨hz, hl⟩⟩

theorem skyFromCols_inv {rn dn : String} {ra dec : Column ℚ} {d : Dataset ℚ}
    {r : ResolvedCoord} (h : skyFromCols rn dn ra dec d = .ok r) :
    r.missing.length = d.N ∧
    r.not_missing_id = boolGet (List.range d.N) (notMask r.missing) ∧
    r.pts = (boolGet ra.values (notMask r.missing)).zip
      (boolGet dec.values (notMask r.missing)) ∧
    r.ra_name = some rn ∧ r.dec_name = some dn ∧
    skyMissing0 ra dec d = .ok r.missing := by
  unfold skyFromCols at h
  cases h1 : skyMissing0 ra dec d with
  | error e => rw [h1, except_bind_error] at h; exact absurd h (by simp)
  | ok m =>
  rw [h1, except_bind_ok] at h
  cases h2 : npBoolGet (List.range d.N) (notMask m) with
  | error e => rw [h2, except_bind_error] at h; exact absurd h (by simp)
  | ok nm =>
  rw [h2, except_bind_ok] at h
  cases h3 : npBoolGet (Column.values ra) (notMask m) with
  | error e => rw [h3, except_bind_error] at h; exact absurd h (by simp)
  | ok ravals =>
  rw [h3, except_bind_ok] at h
  cases h4 : npBoolGet (Column.values dec) (notMask m) with
  | error e => rw [h4, except_bind_error] at h; exact absurd h (by simp)
  | ok decvals =>
  rw [h4, except_bind_ok] at h
  obtain ⟨hl, hb⟩ := npBoolGet_ok h2
  obtain ⟨hral, hra⟩ := npBoolGet_ok h3
  obtain ⟨hdecl, hdec⟩ := npBoolGet_ok h4
  simp only [pure, Except.pure, Except.ok.injEq] at h
  subst h
  exact ⟨by simpa [notMask_length] using hl.symm, hb, by rw [hra, hdec], rfl, rfl, rfl⟩

theorem skyResolveSky_inv {pts : List (ℚ × ℚ)} {d : Dataset ℚ} {r : ResolvedCoord}
    (h : skyResolveSky pts d = .ok r) :
    r = ⟨pts, none, none, List.replicate d.N false, List.range d.N⟩ := by
  unfold skyResolveSky at h
  cases h1 : npBoolGet (List.range d.N) (notMask (List.replicate d.N false)) with
  | error e => rw [h1, except_bind_error] at h; exact absurd h (by simp)
  | ok nm =>
  rw [h1, except_bind_ok] at h
  obtain ⟨hl, hb⟩ := npBoolGet_ok h1
  simp only [pure, Except.pure, Except.ok.injEq] at h
  subst h
  have hr : boolGet (List.range d.N) (notMask (List.replicate d.N false)) = List.range d.N := by
    have : notMask (List.replicate d.N false) = List.replicate d.N true := by
      simp [notMask]
    rw [this]
    have := boolGet_all_true (List.range d.N)
    simpa using this
  rw [hb, hr]

theorem skyResolveAuto_inv {d : Dataset ℚ} {r : ResolvedCoord}
    (h : skyResolveAuto d = .ok r) :
    ∃ rn dn ra dec,
      pickFirst ra_names d = .ok rn ∧ getColE d rn = .ok ra ∧
      pickFirst dec_names d = .ok dn ∧ getColE d dn = .ok dec ∧
      skyFromCols rn dn ra dec d = .ok r := by
  unfold skyResolveAuto at h
  cases h1 : pickFirst ra_names d with
  | error e => rw [h1, except_bind_error] at h; exact absurd h (by simp)
  | ok rn =>
  rw [h1, except_bind_ok] at h
  cases h2 : getColE d rn with
  | error e => rw [h2, except_bind_error] at h; exact absurd h (by simp)
  | ok ra =>
  rw [h2, except_bind_ok] at h
  cases h3 : pickFirst dec_names d with
  | error e => rw [h3, except_bind_error] at h; exact absurd h (by simp)
  | ok dn =>
  rw [h3, except_bind_ok] at h
  cases h4 : getColE d dn with
  | error e => rw [h4, except_bind_error] at h; exact absurd h (by simp)
  | ok dec =>
  rw [h4, except_bind_ok] at h
  exact ⟨rn, dn, ra, dec, rfl, h2, rfl, h4, h⟩

theorem skyResolveCols_inv {rn dn : String} {d : Dataset ℚ} {r : ResolvedCoord}
    (h : skyResolveCols rn dn d = .ok r) :
    ∃ ra dec, getColE d rn = .ok ra ∧ getColE d dn = .ok dec ∧
      skyFromCols rn dn ra dec d = .ok r := by
  unfold skyResolveCols at h
  cases h2 : getColE d rn with
  | error e => rw [h2, except_bind_error] at h; exact absurd h (by simp)
  | ok ra =>
  rw [h2, except_bind_ok] at h
  cases h4 : getColE d dn with
  | error e => rw [h4, except_bind_error] at h; exact absurd h (by simp)
  | ok dec =>
  rw [h4, except_bind_ok] at h
  exact ⟨ra, dec, rfl, rfl, h⟩

theorem skyResolve_core {spec : CoordSpec} {d : Dataset ℚ} {r : ResolvedCoord}
    (h : skyResolve spec d = .ok r) :
    r.missing.length = d.N ∧
    r.not_missing_id = boolGet (List.range d.N) (notMask r.missing) := by
  cases spec with
  | auto =>
      obtain ⟨rn, dn, ra, dec, _, _, _, _, h5⟩ := skyResolveAuto_inv h
      obtain ⟨ha, hb, _⟩ := skyFromCols_inv h5
      exact ⟨ha, hb⟩
  | colPair rn dn =>
      obtain ⟨ra, dec, _, _, h5⟩ := skyResolveCols_inv h
      obtain ⟨ha, hb, _⟩ := skyFromCols_inv h5
      exact ⟨ha, hb⟩
  | sky pts =>
      have h5 := skyResolveSky_inv (h : skyResolveSky pts d = .ok r)
      subst h5
      constructor
      · simp
      · have : notMask (List.replicate d.N false) = List.replicate d.N true := by
          simp [notMask]
        rw [this]
        have h6 := boolGet_all_true (List.range d.N)
        simp only [List.length_range] at h6
        exact h6.symm

theorem sky_get_values_inv {s₀ s : SkyMatcher} {d d1 : Dataset ℚ}
    (h : s₀.get_values d d1 = .ok s) :
    ∃ r r1, skyResolve s₀.coord d = .ok r ∧ skyResolve s₀.coord1 d1 = .ok r1 ∧
      s = { s₀ with
            coord := CoordSpec.sky r.pts, coord1 := CoordSpec.sky r1.pts,
            ra_name := r1.ra_name, dec_name := r1.dec_name,
            missing := r.missing, missing1 := r1.missing,
            not_missing_id := r.not_missing_id,
            not_missing_id1 := r1.not_missing_id } := by
  unfold SkyMatcher.get_values at h
  cases h1 : skyResolve s₀.coord d with
  | error e => rw [h1, except_bind_error] at h; exact absurd h (by simp)
  | ok r =>
  rw [h1, except_bind_ok] at h
  cases h2 : skyResolve s₀.coord1 d1 with
  | error e => rw [h2, except_bind_error] at h; exact absurd h (by simp)
  | ok r1 =>
  rw [h2, except_bind_ok] at h
  simp only [pure, Except.pure, Except.ok.injEq] at h
  exact ⟨r, r1, rfl, rfl, h.symm⟩

theorem sky_doMatch_inv {sep : ℚ × ℚ → ℚ × ℚ → ℚ} {s : SkyMatcher}
    {idx : List Int} {matched : List Bool}
    (h : s.doMatch sep = .ok (idx, matched)) :
    ∃ (c c1 : List (ℚ × ℚ)) (tgt : List Nat),
      s.coord = .sky c ∧ s.coord1 = .sky c1 ∧ c1 ≠ [] ∧
      (∀ y ∈ tgt, y ∈ s.not_missing_id1) ∧
      tgt.length = c.length ∧
      (notMask s.missing).count true = c.length ∧
      idx = boolSet (List.replicate s.missing.length (-(s.missing.length : Int) - 1))
        (notMask s.missing) (tgt.map Int.ofNat) ∧
      matched = boolSet (List.replicate s.missing.length false) (notMask s.missing)
        (c.map (fun p => decide ((argminSep sep p c1).2 < s.thres))) := by
  unfold SkyMatcher.doMatch at h
  cases h1 : coordPts s.coord with
  | error e => rw [h1, except_bind_error] at h; exact absurd h (by simp)
  | ok c =>
  rw [h1, except_bind_ok] at h
  cases h2 : coordPts s.coord1 with
  | error e => rw [h2, except_bind_error] at h; exact absurd h (by simp)
  | ok c1 =>
  rw [h2, except_bind_ok] at h
  cases h3 : matchToCatalogSky sep c c1 with
  | error e => rw [h3, except_bind_error] at h; exact absurd h (by simp)
  | ok nn =>
  rw [h3, except_bind_ok] at h
  cases h4 : npGather s.not_missing_id1 nn.1 with
  | error e => rw [h4, except_bind_error] at h; exact absurd h (by simp)
  | ok tgt =>
  rw [h4, except_bind_ok] at h
  cases h5 : npBoolSet (List.replicate s.missing.length (-(s.missing.length : Int) - 1))
      (notMask s.missing) (tgt.map Int.ofNat) with
  | error e => rw [h5, except_bind_error] at h; exact absurd h (by simp)
  | ok idx2 =>
  rw [h5, except_bind_ok] at h
  cases h6 : npBoolSet (List.replicate s.missing.length false) (notMask s.missing)
      (nn.2.map (fun x => decide (x < s.thres))) with
  | error e => rw [h6, except_bind_error] at h; exact absurd h (by simp)
  | ok m2 =>
  rw [h6, except_bind_ok] at h
  simp only [pure, Except.pure, Except.ok.injEq, Prod.mk.injEq] at h
  obtain ⟨hidx, hmatched⟩ := h
  subst hidx; subst hmatched
  obtain ⟨hne, hnn1, hnn2⟩ := matchToCatalogSky_ok h3
  obtain ⟨htl, htm⟩ := npGather_ok h4
  obtain ⟨hb1, hb2, hb3⟩ := npBoolSet_ok h5
  obtain ⟨hc1, hc2, hc3⟩ := npBoolSet_ok h6
  refine ⟨c, c1, tgt, coordPts_ok h1, coordPts_ok h2, hne, htm, ?_, ?_, hb3, ?_⟩
  · rw [htl, hnn1]; simp
  · rw [hc2, hnn2]; simp
  · rw [hc3, hnn2]
    have : ((c.map (fun p => argminSep sep p c1)).map Prod.snd).map
        (fun x => decide (x < s.thres)) =
        c.map (fun p => decide ((argminSep sep p c1).2 < s.thres)) := by
      rw [List.map_map, List.map_map]
      rfl
    rw [this]

/-! Small glue lemmas. -/

theorem getD_replicate {β : Type} {n : Nat} (x d : β) {i : Nat} (h : i < n) :
    (List.replicate n x).getD i d = x := by
  rw [List.getD_eq_getElem _ _ (by simpa using h)]
  simp

theorem getD_map {α β : Type} (f : α → β) (l : List α) {k : Nat} (d : β) (d0 : α)
    (h : k < l.length) : (l.map f).getD k d = f (l.getD k d0) := by
  rw [List.getD_eq_getElem _ _ (by simpa using h), List.getD_eq_getElem _ _ h]
  simp

theorem getD_mem {α : Type} (l : List α) {k : Nat} (d : α) (h : k < l.length) :
    l.getD k d ∈ l := by
  rw [List.getD_eq_getElem _ _ h]
  exact List.getElem_mem h

theorem boolGet_range_lt {N : Nat} {m : List Bool} {y : Nat}
    (h : y ∈ boolGet (List.range N) m) : y < N :=
  List.mem_range.mp (mem_boolGet h)

/-- The congruence used for re-preparation: `ExactMatcher.get_values`
reads only the two value specifications of the instance. -/
theorem exact_get_values_congr {α : Type} (s t : ExactMatcher α) (d d1 : Dataset α)
    (hv : s.value = t.value) (hv1 : s.value1 = t.value1) :
    s.get_values d d1 = t.get_values d d1 := by
  unfold ExactMatcher.get_values
  rw [hv, hv1]

/-- The congruence used for re-preparation: `SkyMatcher.get_values` reads
only the threshold and the two coordinate specifications of the instance. -/
theorem sky_get_values_congr (s t : SkyMatcher) (d d1 : Dataset ℚ)
    (ht : s.thres = t.thres) (hc : s.coord = t.coord) (hc1 : s.coord1 = t.coord1) :
    s.get_values d d1 = t.get_values d d1 := by
  unfold SkyMatcher.get_values
  rw [hc, hc1]
  cases h1 : skyResolve t.coord d with
  | error e => rw [except_bind_error, except_bind_error]
  | ok r =>
      rw [except_bind_ok, except_bind_ok]
      cases h2 : skyResolve t.coord1 d1 with
      | error e => rw [except_bind_error, except_bind_error]
      | ok r1 =>
          rw [except_bind_ok, except_bind_ok]
          simp only [pure, Except.pure, Except.ok.injEq]
          cases s
          cases t
          simp_all

/-! Concrete example data used by witnesses and counterexamples. -/

/-- An unmasked integer-keyed table of length 3 with keys 1, 2, 3. -/
def exK : Dataset Int :=
  ⟨"dA", false, 3, [("k", ⟨[(1, false), (2, false), (3, false)]⟩)]⟩

/-- An unmasked integer-keyed table of length 3 with keys 3, 1, 5. -/
def exK1 : Dataset Int :=
  ⟨"dB", false, 3, [("k", ⟨[(3, false), (1, false), (5, false)]⟩)]⟩

/-- A masked integer-keyed table of length 3: row 1's key is masked. -/
def exKm : Dataset Int :=
  ⟨"dAm", true, 3, [("k", ⟨[(1, false), (2, true), (3, false)]⟩)]⟩

/-- Single-row tables used for the re-preparation counterexample. -/
def dsA : Dataset Int := ⟨"a", false, 1, [("k", ⟨[(1, false)]⟩)]⟩

def dsA1 : Dataset Int := ⟨"c", false, 1, [("k", ⟨[(5, false)]⟩)]⟩

def dsB : Dataset Int := ⟨"d", false, 1, [("k", ⟨[(2, false)]⟩)]⟩

def dsB1 : Dataset Int := ⟨"e", false, 1, [("k", ⟨[(2, false)]⟩)]⟩

/-- A concrete separation function for witnesses: 0 arcsec for equal
points and 100 arcsec otherwise (any separation function works here, as
the theorems are universally quantified over it). -/
def sepEx : ℚ × ℚ → ℚ × ℚ → ℚ := fun a b => if a = b then 0 else 100

/-- A one-row unmasked sky table at (0, 0). -/
def skyA : Dataset ℚ :=
  ⟨"sA", false, 1, [("ra", ⟨[(0, false)]⟩), ("DEC", ⟨[(0, false)]⟩)]⟩

/-- A one-row unmasked sky table at (100, 0), far from `skyA`. -/
def skyB : Dataset ℚ :=
  ⟨"sB", false, 1, [("ra", ⟨[(100, false)]⟩), ("DEC", ⟨[(0, false)]⟩)]⟩

/-- A masked two-row sky table; row 1's RA is masked. -/
def skyC : Dataset ℚ :=
  ⟨"sC", true, 2, [("ra", ⟨[(0, false), (0, true)]⟩), ("DEC", ⟨[(0, false), (0, false)]⟩)]⟩

/-- An unmasked two-row sky table at (0, 0) and (100, 0). -/
def skyD : Dataset ℚ :=
  ⟨"sD", false, 2, [("ra", ⟨[(0, false), (100, false)]⟩), ("Dec", ⟨[(0, false), (0, false)]⟩)]⟩

/-- The prepared state of an exact matcher on (`exK`, `exK1`). -/
def exPrepK : ExactMatcher Int :=
  (((ExactMatcher.mk0 (ValueSpec.name "k") (ValueSpec.name "k")).get_values
    exK exK1).toOption).getD (ExactMatcher.mk0 (ValueSpec.name "k") (ValueSpec.name "k"))

/-- The prepared state of an exact matcher on (`exKm`, `exK1`). -/
def exPrepKm : ExactMatcher Int :=
  (((ExactMatcher.mk0 (ValueSpec.name "k") (ValueSpec.name "k")).get_values
    exKm exK1).toOption).getD (ExactMatcher.mk0 (ValueSpec.name "k") (ValueSpec.name "k"))

/-- The prepared state of a default-configured sky matcher on
(`skyC`, `skyD`). -/
def skyPrepCD : SkyMatcher :=
  (((SkyMatcher.mk0 1 CoordSpec.auto CoordSpec.auto).get_values
    skyC skyD).toOption).getD (SkyMatcher.mk0 1 CoordSpec.auto CoordSpec.auto)

/-- The prepared state of a default-configured sky matcher on
(`skyA`, `skyB`). -/
def skyPrepAB : SkyMatcher :=
  (((SkyMatcher.mk0 1 CoordSpec.auto CoordSpec.auto).get_values
    skyA skyB).toOption).getD (SkyMatcher.mk0 1 CoordSpec.auto CoordSpec.auto)

theorem getD_ne_default_lt {β : Type} {m : List β} {i : Nat} {d : β}
    (h : m.getD i d ≠ d) : i < m.length := by
  by_contra hc
  push_neg at hc
  rw [List.getD_eq_default _ _ hc] at h
  exact h rfl

theorem getD_switch_default {β : Type} {m : List β} {i : Nat} (d d2 : β)
    (h : i < m.length) : m.getD i d = m.getD i d2 := by
  rw [List.getD_eq_getElem _ _ h, List.getD_eq_getElem _ _ h]

theorem getD_true_lt {m : List Bool} {i : Nat} (h : m.getD i false = true) :
    i < m.length :=
  @getD_ne_default_lt Bool m i false (by rw [h]; simp)

theorem getD_false_lt {m : List Bool} {i : Nat} (h : m.getD i true = false) :
    i < m.length :=
  @getD_ne_default_lt Bool m i true (by rw [h]; simp)

/-- Helper: a missing row of a prepared ExactMatcher yields matched false
and the sentinel index. -/
theorem exact_missing_row {α : Type} [inst : DecidableEq α] {s₀ s : ExactMatcher α}
    {data data1 : Dataset α} {idx : List Int} {matched : List Bool} {i : Nat}
    (hprep : s₀.get_values data data1 = .ok s)
    (hmatch : s.doMatch = .ok (idx, matched))
    (hmiss : s.missing.getD i false = true) :
    matched.getD i false = false ∧ idx.getD i 0 = -(data.N : Int) - 1 := by
  obtain ⟨v, v1, r, r1, hr1, hr2, hr3, hr4, hs⟩ := exact_get_values_inv hprep
  obtain ⟨hlen, -, -⟩ := exactMissingOf_inv hr3
  obtain ⟨v2, v12, tgt, -, -, hm, -, -, -, hidx⟩ := exact_doMatch_inv hmatch
  have hsm : s.missing.length = data.N := by rw [hs]; exact hlen
  have hi : i < s.missing.length := getD_true_lt hmiss
  have hnot : (notMask s.missing).getD i false = false := by
    rw [notMask_getD _ _ hi, hmiss]
    rfl
  have hmf : matched.getD i false = false := by
    rw [hm, boolSet_getD_of_false _ _ _ _ _ hnot, getD_replicate _ _ hi]
  refine ⟨hmf, ?_⟩
  rw [hidx, boolSet_getD_of_false _ _ _ _ _ hmf, getD_replicate _ _ hi, hsm]

/-- Helper: a missing row of a prepared SkyMatcher yields matched false
and the sentinel index. -/
theorem sky_missing_row {sep : ℚ × ℚ → ℚ × ℚ → ℚ} {s₀ s : SkyMatcher}
    {data data1 : Dataset ℚ} {idx : List Int} {matched : List Bool} {i : Nat}
    (hprep : s₀.get_values data data1 = .ok s)
    (hmatch : s.doMatch sep = .ok (idx, matched))
    (hmiss : s.missing.getD i false = true) :
    matched.getD i false = false ∧ idx.getD i 0 = -(data.N : Int) - 1 := by
  obtain ⟨r, r1, hr1, hr2, hs⟩ := sky_get_values_inv hprep
  obtain ⟨c, c1, tgt, -, -, -, -, -, -, hidx, hm⟩ := sky_doMatch_inv hmatch
  have hsm : s.missing.length = data.N := by rw [hs]; exact (skyResolve_core hr1).1
  have hi : i < s.missing.length := getD_true_lt hmiss
  have hnot : (notMask s.missing).getD i false = false := by
    rw [notMask_getD _ _ hi, hmiss]
    rfl
  constructor
  · rw [hm, boolSet_getD_of_false _ _ _ _ _ hnot, getD_replicate _ _ hi]
  · rw [hidx, boolSet_getD_of_false _ _ _ _ _ hnot, getD_replicate _ _ hi, hsm]

/-! Claim theorems. -/

/-- C8: for every prepared matcher (ExactMatcher or SkyMatcher) over a
base dataset of length N, both arrays returned by match() have length N
(the length of the base dataset). -/
theorem C8_match_lengths :
    (∀ {α : Type} [inst : DecidableEq α] (s₀ s : ExactMatcher α)
      (data data1 : Dataset α) (idx : List Int) (matched : List Bool),
      s₀.get_values data data1 = .ok s →
      s.doMatch = .ok (idx, matched) →
      idx.length = data.N ∧ matched.length = data.N) ∧
    (∀ (sep : ℚ × ℚ → ℚ × ℚ → ℚ) (s₀ s : SkyMatcher) (data data1 : Dataset ℚ)
      (idx : List Int) (matched : List Bool),
      s₀.get_values data data1 = .ok s →
      s.doMatch sep = .ok (idx, matched) →
      idx.length = data.N ∧ matched.length = data.N) := by
  constructor
  · intro α inst s₀ s data data1 idx matched hprep hmatch
    obtain ⟨v, v1, r, r1, hr1, hr2, hr3, hr4, hs⟩ := exact_get_values_inv hprep
    obtain ⟨hlen, -, -⟩ := exactMissingOf_inv hr3
    obtain ⟨v2, v12, tgt, -, -, hm, -, -, -, hidx⟩ := exact_doMatch_inv hmatch
    have hsm : s.missing.length = data.N := by rw [hs]; exact hlen
    constructor
    · rw [hidx, boolSet_length, List.length_replicate, hsm]
    · rw [hm, boolSet_length, List.length_replicate, hsm]
  · intro sep s₀ s data data1 idx matched hprep hmatch
    obtain ⟨r, r1, hr1, hr2, hs⟩ := sky_get_values_inv hprep
    obtain ⟨c, c1, tgt, -, -, -, -, -, -, hidx, hm⟩ := sky_doMatch_inv hmatch
    have hsm : s.missing.length = data.N := by rw [hs]; exact (skyResolve_core hr1).1
    constructor
    · rw [hidx, boolSet_length, List.length_replicate, hsm]
    · rw [hm, boolSet_length, List.length_replicate, hsm]

/-- Witness for C8 at concrete inputs: an exact matcher on the masked
3-row table and a sky matcher on the masked 2-row table. -/
theorem C8_witness :
    (([1, -4, 0] : List Int).length = exKm.N ∧ [true, false, true].length = exKm.N) ∧
    (([0, -3] : List Int).length = skyC.N ∧ [true, false].length = skyC.N) := by
  constructor
  · exact C8_match_lengths.1 (ExactMatcher.mk0 (ValueSpec.name "k") (ValueSpec.name "k"))
      exPrepKm exKm exK1 [1, -4, 0] [true, false, true] (by decide) (by decide)
  · exact C8_match_lengths.2 sepEx (SkyMatcher.mk0 1 CoordSpec.auto CoordSpec.auto)
      skyPrepCD skyC skyD [0, -3] [true, false] (by decide) (by decide)

/-- C6: for every prepared matcher (ExactMatcher or SkyMatcher) and every
base row i whose key or coordinate is missing (masked), match() returns
matched[i] = false and idx[i] equal to the sentinel -(N+1), regardless of
the content of the other dataset. -/
theorem C6_missing_rows :
    (∀ {α : Type} [inst : DecidableEq α] (s₀ s : ExactMatcher α)
      (data data1 : Dataset α) (idx : List Int) (matched : List Bool) (i : Nat),
      s₀.get_values data data1 = .ok s →
      s.doMatch = .ok (idx, matched) →
      s.missing.getD i false = true →
      matched.getD i false = false ∧ idx.getD i 0 = -(data.N : Int) - 1) ∧
    (∀ (sep : ℚ × ℚ → ℚ × ℚ → ℚ) (s₀ s : SkyMatcher) (data data1 : Dataset ℚ)
      (idx : List Int) (matched : List Bool) (i : Nat),
      s₀.get_values data data1 = .ok s →
      s.doMatch sep = .ok (idx, matched) →
      s.missing.getD i false = true →
      matched.getD i false = false ∧ idx.getD i 0 = -(data.N : Int) - 1) := by
  constructor
  · intro α inst s₀ s data data1 idx matched i hprep hmatch hmiss
    exact exact_missing_row hprep hmatch hmiss
  · intro sep s₀ s data data1 idx matched i hprep hmatch hmiss
    exact sky_missing_row hprep hmatch hmiss

/-- Witness for C6 at concrete inputs: row 1 of the masked tables `exKm`
(key masked) and `skyC` (RA masked). -/
theorem C6_witness :
    ([true, false, true].getD 1 false = false ∧
      ([1, -4, 0] : List Int).getD 1 0 = -(exKm.N : Int) - 1) ∧
    ([true, false].getD 1 false = false ∧
      ([0, -3] : List Int).getD 1 0 = -(skyC.N : Int) - 1) := by
  constructor
  · exact C6_missing_rows.1 (ExactMatcher.mk0 (ValueSpec.name "k") (ValueSpec.name "k"))
      exPrepKm exKm exK1 [1, -4, 0] [true, false, true] 1
      (by decide) (by decide) (by decide)
  · exact C6_missing_rows.2 sepEx (SkyMatcher.mk0 1 CoordSpec.auto CoordSpec.auto)
      skyPrepCD skyC skyD [0, -3] [true, false] 1
      (by decide) (by decide) (by decide)

/-- Claim C1 is false on the code for SkyMatcher: prepare a default sky
matcher on the one-row tables `skyA` (base, at (0,0)) and `skyB` (other, at
(100,0)) and match with a separation of 100 arcsec against threshold 1.
The row is unmatched (matched[0] = false), yet idx[0] = 0, the
nearest-neighbour index, and not the sentinel -(N+1) = -2: line 186 of the
source assigns `idx[~missing] = not_missing_id1[idx_nm]` for all
non-missing rows, without gating on the threshold. -/
theorem C1_counterexample :
    (SkyMatcher.mk0 1 CoordSpec.auto CoordSpec.auto).get_values skyA skyB
      = .ok skyPrepAB ∧
    skyPrepAB.doMatch sepEx = .ok ([0], [false]) ∧
    [false].getD 0 false = false ∧
    (([0] : List Int).getD 0 0 ≠ -(skyA.N : Int) - 1) := by
  refine ⟨by decide, by decide, by decide, by decide⟩

/-- C1 amended: for ExactMatcher, every row with matched[i] = false has
idx[i] equal to the sentinel -(N+1); for SkyMatcher this holds only for
rows whose coordinates are missing — a non-missing unmatched row instead
keeps the untrusted nearest-neighbour index. -/
theorem C1_amended :
    (∀ {α : Type} [inst : DecidableEq α] (s₀ s : ExactMatcher α)
      (data data1 : Dataset α) (idx : List Int) (matched : List Bool) (i : Nat),
      s₀.get_values data data1 = .ok s →
      s.doMatch = .ok (idx, matched) →
      i < matched.length →
      matched.getD i false = false →
      idx.getD i 0 = -(data.N : Int) - 1) ∧
    (∀ (sep : ℚ × ℚ → ℚ × ℚ → ℚ) (s₀ s : SkyMatcher) (data data1 : Dataset ℚ)
      (idx : List Int) (matched : List Bool) (i : Nat),
      s₀.get_values data data1 = .ok s →
      s.doMatch sep = .ok (idx, matched) →
      s.missing.getD i false = true →
      idx.getD i 0 = -(data.N : Int) - 1) := by
  constructor
  · intro α inst s₀ s data data1 idx matched i hprep hmatch hi hmf
    obtain ⟨v, v1, r, r1, hr1, hr2, hr3, hr4, hs⟩ := exact_get_values_inv hprep
    obtain ⟨hlen, -, -⟩ := exactMissingOf_inv hr3
    obtain ⟨v2, v12, tgt, -, -, hm, -, -, -, hidx⟩ := exact_doMatch_inv hmatch
    have hsm : s.missing.length = data.N := by rw [hs]; exact hlen
    have hi2 : i < s.missing.length := by
      have : matched.length = s.missing.length := by
        rw [hm, boolSet_length, List.length_replicate]
      omega
    rw [hidx, boolSet_getD_of_false _ _ _ _ _ hmf, getD_replicate _ _ hi2, hsm]
  · intro sep s₀ s data data1 idx matched i hprep hmatch hmiss
    exact (sky_missing_row hprep hmatch hmiss).2

/-- Witness for the amended C1: the unmatched key-2 row of `exK` against
`exK1` (ExactMatcher), and the masked row 1 of `skyC` (SkyMatcher). -/
theorem C1_witness :
    ([1, -4, 0] : List Int).getD 1 0 = -(exK.N : Int) - 1 ∧
    ([0, -3] : List Int).getD 1 0 = -(skyC.N : Int) - 1 := by
  constructor
  · exact C1_amended.1 (ExactMatcher.mk0 (ValueSpec.name "k") (ValueSpec.name "k"))
      exPrepK exK exK1 [1, -4, 0] [true, false, true] 1
      (by decide) (by decide) (by decide) (by decide)
  · exact C1_amended.2 sepEx (SkyMatcher.mk0 1 CoordSpec.auto CoordSpec.auto)
      skyPrepCD skyC skyD [0, -3] [true, false] 1
      (by decide) (by decide) (by decide)

/-- Helper: an in-range getD value of a mapped `Int.ofNat` list whose
elements all lie in a compact index map built from `List.range N` is a
valid index in `[0, N)`. -/
theorem gather_value_range {tgt : List Nat} {nm1 : List Nat} {nm1mask : List Bool}
    {N k : Nat}
    (hmem : ∀ y ∈ tgt, y ∈ nm1) (hnm : nm1 = boolGet (List.range N) (notMask nm1mask))
    (hk : k < tgt.length) :
    0 ≤ (tgt.map Int.ofNat).getD k 0 ∧ (tgt.map Int.ofNat).getD k 0 < (N : Int) := by
  rw [getD_map Int.ofNat tgt 0 0 hk]
  have hmem2 : tgt.getD k 0 ∈ tgt := getD_mem tgt 0 hk
  have hy : tgt.getD k 0 ∈ nm1 := hmem _ hmem2
  rw [hnm] at hy
  have hlt : tgt.getD k 0 < N := boolGet_range_lt hy
  rw [Int.ofNat_eq_coe]
  constructor
  · omega
  · omega

/-- C9: for every prepared matcher (ExactMatcher or SkyMatcher) and every
index i, if matched[i] is true then idx[i] is a valid row index into the
other dataset: 0 ≤ idx[i] < len(data1). -/
theorem C9_matched_idx_valid :
    (∀ {α : Type} [inst : DecidableEq α] (s₀ s : ExactMatcher α)
      (data data1 : Dataset α) (idx : List Int) (matched : List Bool) (i : Nat),
      s₀.get_values data data1 = .ok s →
      s.doMatch = .ok (idx, matched) →
      matched.getD i false = true →
      0 ≤ idx.getD i 0 ∧ idx.getD i 0 < (data1.N : Int)) ∧
    (∀ (sep : ℚ × ℚ → ℚ × ℚ → ℚ) (s₀ s : SkyMatcher) (data data1 : Dataset ℚ)
      (idx : List Int) (matched : List Bool) (i : Nat),
      s₀.get_values data data1 = .ok s →
      s.doMatch sep = .ok (idx, matched) →
      matched.getD i false = true →
      0 ≤ idx.getD i 0 ∧ idx.getD i 0 < (data1.N : Int)) := by
  constructor
  · intro α inst s₀ s data data1 idx matched i hprep hmatch hmt
    obtain ⟨v, v1, r, r1, hr1, hr2, hr3, hr4, hs⟩ := exact_get_values_inv hprep
    obtain ⟨hlen1, hnm1, -⟩ := exactMissingOf_inv hr4
    obtain ⟨v2, v12, tgt, -, -, hm, -, htm, hcnt, hidx⟩ := exact_doMatch_inv hmatch
    have hml : matched.length = s.missing.length := by
      rw [hm, boolSet_length, List.length_replicate]
    have hset : idx.getD i 0 = (tgt.map Int.ofNat).getD ((matched.take i).count true) 0 := by
      rw [hidx]
      exact boolSet_getD_of_true _ _ _ _ _ hmt (by rw [hcnt]; simp)
        (by rw [List.length_replicate, hml])
    have hk : (matched.take i).count true < tgt.length := by
      have := count_take_lt matched i hmt
      omega
    rw [hset]
    have hnm : s.not_missing_id1 = boolGet (List.range data1.N) (notMask r1.1) := by
      rw [hs]
      exact hnm1
    exact gather_value_range htm hnm hk
  · intro sep s₀ s data data1 idx matched i hprep hmatch hmt
    obtain ⟨r, r1, hr1, hr2, hs⟩ := sky_get_values_inv hprep
    obtain ⟨c, c1, tgt, -, -, -, htm, htl, hcnt, hidx, hm⟩ := sky_doMatch_inv hmatch
    have hi : i < matched.length := getD_true_lt hmt
    have hml : matched.length = s.missing.length := by
      rw [hm, boolSet_length, List.length_replicate]
    have hnotm : (notMask s.missing).getD i false = true := by
      by_contra hb
      have hb2 : (notMask s.missing).getD i false = false := by
        cases hh : (notMask s.missing).getD i false
        · rfl
        · exact absurd hh hb
      have : matched.getD i false = false := by
        rw [hm, boolSet_getD_of_false _ _ _ _ _ hb2, getD_replicate _ _ (by omega)]
      rw [this] at hmt
      cases hmt
    have hset : idx.getD i 0 =
        (tgt.map Int.ofNat).getD (((notMask s.missing).take i).count true) 0 := by
      rw [hidx]
      exact boolSet_getD_of_true _ _ _ _ _ hnotm
        (by rw [hcnt, ← htl]; simp) (by rw [List.length_replicate, notMask_length])
    have hk : ((notMask s.missing).take i).count true < tgt.length := by
      have := count_take_lt (notMask s.missing) i hnotm
      rw [hcnt, ← htl] at this
      omega
    rw [hset]
    have hnm : s.not_missing_id1 = boolGet (List.range data1.N) (notMask r1.missing) := by
      rw [hs]
      exact (skyResolve_core hr2).2
    exact gather_value_range htm hnm hk

/-- Witness for C9: the matched rows 0 of the exact matcher on
(`exKm`, `exK1`) and of the sky matcher on (`skyC`, `skyD`). -/
theorem C9_witness :
    (0 ≤ ([1, -4, 0] : List Int).getD 0 0 ∧
      ([1, -4, 0] : List Int).getD 0 0 < (exK1.N : Int)) ∧
    (0 ≤ ([0, -3] : List Int).getD 0 0 ∧
      ([0, -3] : List Int).getD 0 0 < (skyD.N : Int)) := by
  constructor
  · exact C9_matched_idx_valid.1 (ExactMatcher.mk0 (ValueSpec.name "k") (ValueSpec.name "k"))
      exPrepKm exKm exK1 [1, -4, 0] [true, false, true] 0
      (by decide) (by decide) (by decide)
  · exact C9_matched_idx_valid.2 sepEx (SkyMatcher.mk0 1 CoordSpec.auto CoordSpec.auto)
      skyPrepCD skyC skyD [0, -3] [true, false] 0
      (by decide) (by decide) (by decide)

/-- C5: for every prepared SkyMatcher and every base row i with
non-missing coordinates, matched[i] is true if and only if the separation
to the nearest point of the other dataset's resolved (non-missing)
coordinates is strictly less than the threshold (both in arcseconds). The
row's resolved coordinate is `c.getD k (0, 0)` where
k = (missing.take i).count false is row i's position among the non-missing
rows. -/
theorem C5_threshold_iff :
    ∀ (sep : ℚ × ℚ → ℚ × ℚ → ℚ) (s₀ s : SkyMatcher) (data data1 : Dataset ℚ)
      (c c1 : List (ℚ × ℚ)) (idx : List Int) (matched : List Bool) (i : Nat),
      s₀.get_values data data1 = .ok s →
      s.coord = .sky c → s.coord1 = .sky c1 →
      s.doMatch sep = .ok (idx, matched) →
      s.missing.getD i true = false →
      (s.missing.take i).count false < c.length ∧
      (matched.getD i false = true ↔
        ∃ q ∈ c1, sep (c.getD ((s.missing.take i).count false) (0, 0)) q < s.thres) := by
  intro sep s₀ s data data1 c c1 idx matched i hprep hc hc1 hmatch hmiss
  obtain ⟨c2, c12, tgt, hco, hco1, hne, -, -, hcnt, -, hm⟩ := sky_doMatch_inv hmatch
  rw [hc] at hco
  rw [hc1] at hco1
  injection hco with hcoe
  injection hco1 with hco1e
  subst hcoe
  subst hco1e
  have hi : i < s.missing.length := getD_false_lt hmiss
  have hmiss2 : s.missing.getD i false = false := by
    rw [getD_switch_default false true hi]
    exact hmiss
  have hnot : (notMask s.missing).getD i false = true := by
    rw [notMask_getD _ _ hi, hmiss2]
    rfl
  have hktrans : ((notMask s.missing).take i).count true = (s.missing.take i).count false :=
    notMask_take_count s.missing i
  have hk : (s.missing.take i).count false < c.length := by
    have := count_take_lt (notMask s.missing) i hnot
    rw [hcnt] at this
    omega
  refine ⟨hk, ?_⟩
  have hgd : matched.getD i false =
      (c.map (fun p => decide ((argminSep sep p c1).2 < s.thres))).getD
        (((notMask s.missing).take i).count true) false := by
    rw [hm]
    exact boolSet_getD_of_true _ _ _ _ _ hnot (by rw [hcnt]; simp)
      (by rw [List.length_replicate, notMask_length])
  rw [hgd, hktrans,
    getD_map (fun p => decide ((argminSep sep p c1).2 < s.thres)) c false (0, 0) hk]
  rw [decide_eq_true_iff]
  exact argminSep_lt_iff sep (c.getD ((s.missing.take i).count false) (0, 0)) c1 hne s.thres

/-- Witness for C5: row 0 of the sky matcher prepared on (`skyC`, `skyD`)
— matched, with nearest resolved point (0,0) at separation 0 < 1. -/
theorem C5_witness :
    (List.count false (List.take 0 [false, true]) < [((0 : ℚ), (0 : ℚ))].length) ∧
    ([true, false].getD 0 false = true ↔
      ∃ q ∈ [((0 : ℚ), (0 : ℚ)), ((100 : ℚ), (0 : ℚ))],
        sepEx ([((0 : ℚ), (0 : ℚ))].getD (List.count false (List.take 0 [false, true])) (0, 0)) q
          < skyPrepCD.thres) := by
  exact C5_threshold_iff sepEx (SkyMatcher.mk0 1 CoordSpec.auto CoordSpec.auto)
    skyPrepCD skyC skyD [((0 : ℚ), (0 : ℚ))] [((0 : ℚ), (0 : ℚ)), ((100 : ℚ), (0 : ℚ))]
    [0, -3] [true, false] 0
    (by decide) (by decide) (by decide) (by decide) (by decide)

/-- The prepared state of a sky matcher whose base coordinate is a
precomputed SkyCoord, on the masked base table `skyC`. -/
def skyPrepS1 : SkyMatcher :=
  (((SkyMatcher.mk0 1 (CoordSpec.sky [((0 : ℚ), (0 : ℚ))]) CoordSpec.auto).get_values
    skyC skyD).toOption).getD
    (SkyMatcher.mk0 1 (CoordSpec.sky [((0 : ℚ), (0 : ℚ))]) CoordSpec.auto)

/-- The prepared state of a sky matcher whose other coordinate is a
precomputed SkyCoord, on the masked other table `skyC`. -/
def skyPrepS2 : SkyMatcher :=
  (((SkyMatcher.mk0 1 CoordSpec.auto (CoordSpec.sky [((5 : ℚ), (5 : ℚ))])).get_values
    skyA skyC).toOption).getD
    (SkyMatcher.mk0 1 CoordSpec.auto (CoordSpec.sky [((5 : ℚ), (5 : ℚ))]))

/-- C10: for every SkyMatcher whose coord (resp. coord1) is supplied as a
precomputed SkyCoord object, prepare sets that dataset's missing mask to
all-false over the dataset's length N and the compact index map to the
full range [0, N), even when the dataset is a masked table, so no row of
that dataset is ever treated as missing. -/
theorem C10_skycoord_no_missing :
    (∀ (s₀ s : SkyMatcher) (pts : List (ℚ × ℚ)) (data data1 : Dataset ℚ),
      s₀.coord = .sky pts →
      s₀.get_values data data1 = .ok s →
      s.missing = List.replicate data.N false ∧
      s.not_missing_id = List.range data.N ∧ s.coord = .sky pts) ∧
    (∀ (s₀ s : SkyMatcher) (pts : List (ℚ × ℚ)) (data data1 : Dataset ℚ),
      s₀.coord1 = .sky pts →
      s₀.get_values data data1 = .ok s →
      s.missing1 = List.replicate data1.N false ∧
      s.not_missing_id1 = List.range data1.N ∧ s.coord1 = .sky pts) := by
  constructor
  · intro s₀ s pts data data1 hcoord hprep
    obtain ⟨r, r1, hr1, hr2, hs⟩ := sky_get_values_inv hprep
    rw [hcoord] at hr1
    have hr1s : skyResolveSky pts data = .ok r := hr1
    have hr := skyResolveSky_inv hr1s
    subst hr
    rw [hs]
    exact ⟨rfl, rfl, rfl⟩
  · intro s₀ s pts data data1 hcoord hprep
    obtain ⟨r, r1, hr1, hr2, hs⟩ := sky_get_values_inv hprep
    rw [hcoord] at hr2
    have hr2s : skyResolveSky pts data1 = .ok r1 := hr2
    have hr := skyResolveSky_inv hr2s
    subst hr
    rw [hs]
    exact ⟨rfl, rfl, rfl⟩

/-- Witness for C10: precomputed-SkyCoord specifications against the
masked table `skyC` on either side; its masks are ignored. -/
theorem C10_witness :
    (skyPrepS1.missing = List.replicate skyC.N false ∧
      skyPrepS1.not_missing_id = List.range skyC.N ∧
      skyPrepS1.coord = .sky [((0 : ℚ), (0 : ℚ))]) ∧
    (skyPrepS2.missing1 = List.replicate skyC.N false ∧
      skyPrepS2.not_missing_id1 = List.range skyC.N ∧
      skyPrepS2.coord1 = .sky [((5 : ℚ), (5 : ℚ))]) := by
  constructor
  · exact C10_skycoord_no_missing.1
      (SkyMatcher.mk0 1 (CoordSpec.sky [((0 : ℚ), (0 : ℚ))]) CoordSpec.auto)
      skyPrepS1 [((0 : ℚ), (0 : ℚ))] skyC skyD (by decide) (by decide)
  · exact C10_skycoord_no_missing.2
      (SkyMatcher.mk0 1 CoordSpec.auto (CoordSpec.sky [((5 : ℚ), (5 : ℚ))]))
      skyPrepS2 [((5 : ℚ), (5 : ℚ))] skyA skyC (by decide) (by decide)

theorem getCol_isSome_of_mem {α : Type} {d : Dataset α} {n : String}
    (h : n ∈ d.colnames) : ∃ c, d.getCol n = some c := by
  unfold Dataset.colnames at h
  obtain ⟨p, hp, hpn⟩ := List.mem_map.mp h
  unfold Dataset.getCol
  cases hf : d.cols.find? (fun q => q.1 == n) with
  | none =>
      have := List.find?_eq_none.mp hf p hp
      simp [hpn] at this
  | some q => exact ⟨q.2, rfl⟩

theorem pickFirst_ra_char {d : Dataset ℚ} {rn : String}
    (h : pickFirst ra_names d = .ok rn) :
    rn = (if "ra" ∈ d.colnames then "ra" else "RA") ∧
    ("ra" ∈ d.colnames ∨ "RA" ∈ d.colnames) ∧ rn ∈ d.colnames := by
  unfold pickFirst ra_names at h
  by_cases h1 : "ra" ∈ d.colnames <;> by_cases h2 : "RA" ∈ d.colnames <;>
    simp [List.filter_cons, h1, h2] at h <;>
    simp [h1, h2, ← h]

theorem pickFirst_dec_char {d : Dataset ℚ} {dn : String}
    (h : pickFirst dec_names d = .ok dn) :
    dn = (if "DEC" ∈ d.colnames then "DEC"
      else if "Dec" ∈ d.colnames then "Dec" else "dec") ∧
    ("DEC" ∈ d.colnames ∨ "Dec" ∈ d.colnames ∨ "dec" ∈ d.colnames) ∧
    dn ∈ d.colnames := by
  unfold pickFirst dec_names at h
  by_cases h1 : "DEC" ∈ d.colnames <;> by_cases h2 : "Dec" ∈ d.colnames <;>
    by_cases h3 : "dec" ∈ d.colnames <;>
    simp [List.filter_cons, h1, h2, h3] at h <;>
    simp [h1, h2, h3, ← h]

/-- C7: for every SkyMatcher with coord (resp. coord1) equal to None, the
RA column is auto-detected by trying ["ra", "RA"] in that priority order
and the Dec column by trying ["DEC", "Dec", "dec"] in that priority order
against the dataset's column names; when no RA candidate (or no Dec
candidate) is present, resolution — and hence prepare — fails with a
KeyError-kind condition. -/
theorem C7_auto_detect :
    ∀ (d : Dataset ℚ),
      (("ra" ∉ d.colnames ∧ "RA" ∉ d.colnames) →
        skyResolve CoordSpec.auto d = .error .keyError) ∧
      (("ra" ∈ d.colnames ∨ "RA" ∈ d.colnames) →
        ("DEC" ∉ d.colnames ∧ "Dec" ∉ d.colnames ∧ "dec" ∉ d.colnames) →
        skyResolve CoordSpec.auto d = .error .keyError) ∧
      (∀ r, skyResolve CoordSpec.auto d = .ok r →
        r.ra_name = some (if "ra" ∈ d.colnames then "ra" else "RA") ∧
        r.dec_name = some (if "DEC" ∈ d.colnames then "DEC"
          else if "Dec" ∈ d.colnames then "Dec" else "dec") ∧
        ("ra" ∈ d.colnames ∨ "RA" ∈ d.colnames) ∧
        ("DEC" ∈ d.colnames ∨ "Dec" ∈ d.colnames ∨ "dec" ∈ d.colnames)) ∧
      (∀ (s₀ : SkyMatcher) (data1 : Dataset ℚ),
        s₀.coord = CoordSpec.auto →
        skyResolve CoordSpec.auto d = .error .keyError →
        s₀.get_values d data1 = .error .keyError) ∧
      (∀ (s₀ : SkyMatcher) (data0 : Dataset ℚ) (r0 : ResolvedCoord),
        s₀.coord1 = CoordSpec.auto →
        skyResolve s₀.coord data0 = .ok r0 →
        skyResolve CoordSpec.auto d = .error .keyError →
        s₀.get_values data0 d = .error .keyError) := by
  intro d
  refine ⟨?_, ?_, ?_, ?_, ?_⟩
  · rintro ⟨h1, h2⟩
    have hp : pickFirst ra_names d = .error .keyError := by
      unfold pickFirst ra_names
      simp [List.filter_cons, h1, h2]
    show skyResolveAuto d = .error .keyError
    unfold skyResolveAuto
    rw [hp, except_bind_error]
  · rintro hra ⟨hd1, hd2, hd3⟩
    have hpd : pickFirst dec_names d = .error .keyError := by
      unfold pickFirst dec_names
      simp [List.filter_cons, hd1, hd2, hd3]
    have hrn : ∃ rn, pickFirst ra_names d = .ok rn ∧ rn ∈ d.colnames := by
      unfold pickFirst ra_names
      by_cases h1 : "ra" ∈ d.colnames
      · exact ⟨"ra", by simp [List.filter_cons, h1], h1⟩
      · rcases hra with h | h
        · exact absurd h h1
        · exact ⟨"RA", by simp [List.filter_cons, h1, h], h⟩
    obtain ⟨rn, hprn, hmem⟩ := hrn
    obtain ⟨cra, hcra⟩ := getCol_isSome_of_mem hmem
    show skyResolveAuto d = .error .keyError
    unfold skyResolveAuto
    rw [hprn, except_bind_ok]
    have hg : getColE d rn = .ok cra := by unfold getColE; rw [hcra]
    rw [hg, except_bind_ok, hpd, except_bind_error]
  · intro r hok
    obtain ⟨rn, dn, ra, dec, hprn, hgra, hpdn, hgdec, hfc⟩ :=
      skyResolveAuto_inv (hok : skyResolveAuto d = .ok r)
    obtain ⟨-, -, -, hran, hdecn, -⟩ := skyFromCols_inv hfc
    obtain ⟨hrn1, hrn2, -⟩ := pickFirst_ra_char hprn
    obtain ⟨hdn1, hdn2, -⟩ := pickFirst_dec_char hpdn
    exact ⟨by rw [hran, hrn1], by rw [hdecn, hdn1], hrn2, hdn2⟩
  · intro s₀ data1 hc herr
    unfold SkyMatcher.get_values
    rw [hc, herr, except_bind_error]
  · intro s₀ data0 r0 hc1 hok herr
    unfold SkyMatcher.get_values
    rw [hok, except_bind_ok, hc1, herr, except_bind_error]

/-- A table with no RA candidate column at all. -/
def dsNoRa : Dataset ℚ := ⟨"n", false, 1, [("foo", ⟨[(0, false)]⟩)]⟩

/-- The resolution of the auto specification against `skyD` (columns
"ra" and "Dec"). -/
def skyDres : ResolvedCoord :=
  ((skyResolve CoordSpec.auto skyD).toOption).getD ⟨[], none, none, [], []⟩

/-- Witness for C7: auto-detection fails with KeyError on a table with no
RA candidate, and on `skyD` (columns "ra", "Dec") it picks "ra" and
"Dec". -/
theorem C7_witness :
    skyResolve CoordSpec.auto dsNoRa = .error .keyError ∧
    (skyDres.ra_name = some (if "ra" ∈ skyD.colnames then "ra" else "RA") ∧
      skyDres.dec_name = some (if "DEC" ∈ skyD.colnames then "DEC"
        else if "Dec" ∈ skyD.colnames then "Dec" else "dec") ∧
      ("ra" ∈ skyD.colnames ∨ "RA" ∈ skyD.colnames) ∧
      ("DEC" ∈ skyD.colnames ∨ "Dec" ∈ skyD.colnames ∨ "dec" ∈ skyD.colnames)) := by
  constructor
  · exact (C7_auto_detect dsNoRa).1 (by decide)
  · exact (C7_auto_detect skyD).2.2.1 skyDres (by decide)

/-- Claim C2 is false on the code: explore calls get_values, overwriting
the instance's resolved state — here the coord specification of a freshly
constructed matcher changes from None (auto) to a resolved SkyCoord, so
explore is not side-effect-free on the instance. -/
theorem C2_counterexample :
    (SkyMatcher.mk0 1 CoordSpec.auto CoordSpec.auto).explore sepEx skyA skyB
      = .ok (skyPrepAB, [100]) ∧
    skyPrepAB ≠ SkyMatcher.mk0 1 CoordSpec.auto CoordSpec.auto := by
  exact ⟨by decide, by decide⟩

/-- C2 amended: explore is not state-preserving — its state effect is
exactly a re-run of the prepare step get_values — and it returns the array
of nearest-neighbour separations (arcsec) of the resolved non-missing base
rows against the resolved other catalog. -/
theorem C2_amended :
    ∀ (sep : ℚ × ℚ → ℚ × ℚ → ℚ) (s₀ : SkyMatcher) (data data1 : Dataset ℚ)
      (out : SkyMatcher × List ℚ),
      s₀.explore sep data data1 = .ok out →
      s₀.get_values data data1 = .ok out.1 ∧
      ∀ (c c1 : List (ℚ × ℚ)), out.1.coord = .sky c → out.1.coord1 = .sky c1 →
        out.2.length = c.length ∧
        ∀ k, k < c.length →
          (∃ q ∈ c1, out.2.getD k 0 = sep (c.getD k (0, 0)) q) ∧
          ∀ q ∈ c1, out.2.getD k 0 ≤ sep (c.getD k (0, 0)) q := by
  intro sep s₀ data data1 out h
  unfold SkyMatcher.explore at h
  cases h1 : s₀.get_values data data1 with
  | error e => rw [h1, except_bind_error] at h; exact absurd h (by simp)
  | ok s =>
  rw [h1, except_bind_ok] at h
  cases h2 : coordPts s.coord with
  | error e => rw [h2, except_bind_error] at h; exact absurd h (by simp)
  | ok c2 =>
  rw [h2, except_bind_ok] at h
  cases h3 : coordPts s.coord1 with
  | error e => rw [h3, except_bind_error] at h; exact absurd h (by simp)
  | ok c12 =>
  rw [h3, except_bind_ok] at h
  cases h4 : matchToCatalogSky sep c2 c12 with
  | error e => rw [h4, except_bind_error] at h; exact absurd h (by simp)
  | ok nn =>
  rw [h4, except_bind_ok] at h
  simp only [pure, Except.pure, Except.ok.injEq] at h
  subst h
  refine ⟨rfl, ?_⟩
  intro c c1 hc hc1
  have hc2 : c2 = c := by
    have := coordPts_ok h2
    rw [hc] at this
    injection this with hh
    exact hh.symm
  have hc12 : c12 = c1 := by
    have := coordPts_ok h3
    rw [hc1] at this
    injection this with hh
    exact hh.symm
  obtain ⟨hne, -, hnn2⟩ := matchToCatalogSky_ok h4
  rw [hc12] at hne
  rw [hc2, hc12] at hnn2
  have hlen : nn.2.length = c.length := by rw [hnn2]; simp
  refine ⟨hlen, ?_⟩
  intro k hk
  have hgd : nn.2.getD k 0 = (argminSep sep (c.getD k (0, 0)) c1).2 := by
    rw [hnn2, List.map_map]
    exact getD_map (fun p => (argminSep sep p c1).2) c 0 (0, 0) hk
  rw [hgd]
  constructor
  · exact argminSep_achieved sep (c.getD k (0, 0)) c1 hne
  · intro q hq
    exact argminSep_le sep (c.getD k (0, 0)) q c1 hq

/-- Witness for the amended C2: explore on (`skyA`, `skyB`) leaves the
matcher in the prepared state and returns the single separation 100,
achieved at the one catalog point. -/
theorem C2_witness :
    (SkyMatcher.mk0 1 CoordSpec.auto CoordSpec.auto).get_values skyA skyB
      = .ok skyPrepAB ∧
    ([(100 : ℚ)].length = [((0 : ℚ), (0 : ℚ))].length) ∧
    (∃ q ∈ [((100 : ℚ), (0 : ℚ))],
      ([(100 : ℚ)]).getD 0 0 = sepEx ([((0 : ℚ), (0 : ℚ))].getD 0 (0, 0)) q) := by
  have h := C2_amended sepEx (SkyMatcher.mk0 1 CoordSpec.auto CoordSpec.auto)
    skyA skyB (skyPrepAB, [100]) (by decide)
  have h2 := h.2 [((0 : ℚ), (0 : ℚ))] [((100 : ℚ), (0 : ℚ))] (by decide) (by decide)
  exact ⟨h.1, h2.1, (h2.2 0 (by decide)).1⟩

/-- Claim C3 is false on the code: an ExactMatcher constructed with column
names, prepared on (`dsA`, `dsA1`) and re-prepared on (`dsB`, `dsB1`),
still matches with the first pair's resolved key values (match returns
([-2], [false])), while a fresh matcher prepared on (`dsB`, `dsB1`)
returns ([0], [true]). -/
theorem C3_counterexample :
    (do
      let s1 ← (ExactMatcher.mk0 (ValueSpec.name "k") (ValueSpec.name "k") :
        ExactMatcher Int).get_values dsA dsA1
      let s2 ← s1.get_values dsB dsB1
      s2.doMatch) = .ok ([-2], [false]) ∧
    (do
      let s ← (ExactMatcher.mk0 (ValueSpec.name "k") (ValueSpec.name "k") :
        ExactMatcher Int).get_values dsB dsB1
      s.doMatch) = .ok ([0], [true]) ∧
    ¬((([-2], [false]) : List Int × List Bool) = ([0], [true])) := by
  exact ⟨by decide, by decide, by decide⟩

/-- C3 amended: a second prepare on a different dataset pair behaves
exactly like preparing a fresh matcher only when the specifications are
raw arrays (ExactMatcher) resp. precomputed SkyCoord objects (SkyMatcher);
column-name (or None) specifications are overwritten by the first prepare
with values resolved from the first pair and are not re-resolved. -/
theorem C3_amended :
    (∀ {α : Type} [inst : DecidableEq α] (xs xs1 : List α) (s₀ s1 : ExactMatcher α)
      (dA dA1 dB dB1 : Dataset α),
      s₀.value = .arr xs → s₀.value1 = .arr xs1 →
      s₀.get_values dA dA1 = .ok s1 →
      s1.get_values dB dB1 = s₀.get_values dB dB1) ∧
    (∀ (pts pts1 : List (ℚ × ℚ)) (s₀ s1 : SkyMatcher) (dA dA1 dB dB1 : Dataset ℚ),
      s₀.coord = .sky pts → s₀.coord1 = .sky pts1 →
      s₀.get_values dA dA1 = .ok s1 →
      s1.get_values dB dB1 = s₀.get_values dB dB1) := by
  constructor
  · intro α inst xs xs1 s₀ s1 dA dA1 dB dB1 hv hv1 hprep
    obtain ⟨v, v1, r, r1, hr1, hr2, hr3, hr4, hs⟩ := exact_get_values_inv hprep
    rw [hv] at hr1
    rw [hv1] at hr2
    have hv2 : v = ValueSpec.arr xs := by
      have h : (Except.ok (ValueSpec.arr xs) : Except Exc (ValueSpec α)) = .ok v := hr1
      injection h with h2
      exact h2.symm
    have hv12 : v1 = ValueSpec.arr xs1 := by
      have h : (Except.ok (ValueSpec.arr xs1) : Except Exc (ValueSpec α)) = .ok v1 := hr2
      injection h with h2
      exact h2.symm
    apply exact_get_values_congr
    · rw [hs, hv]
      exact hv2
    · rw [hs, hv1]
      exact hv12
  · intro pts pts1 s₀ s1 dA dA1 dB dB1 hc hc1 hprep
    obtain ⟨r, r1, hr1, hr2, hs⟩ := sky_get_values_inv hprep
    rw [hc] at hr1
    rw [hc1] at hr2
    have hr : r = ⟨pts, none, none, List.replicate dA.N false, List.range dA.N⟩ :=
      skyResolveSky_inv (hr1 : skyResolveSky pts dA = .ok r)
    have hr12 : r1 = ⟨pts1, none, none, List.replicate dA1.N false, List.range dA1.N⟩ :=
      skyResolveSky_inv (hr2 : skyResolveSky pts1 dA1 = .ok r1)
    apply sky_get_values_congr
    · rw [hs]
    · rw [hs, hr, hc]
    · rw [hs, hr12, hc1]

/-- The prepared state of an exact matcher with raw-array specifications
on (`dsA`, `dsA1`). -/
def exPrepArr : ExactMatcher Int :=
  (((ExactMatcher.mk0 (ValueSpec.arr [7]) (ValueSpec.arr [7])).get_values
    dsA dsA1).toOption).getD (ExactMatcher.mk0 (ValueSpec.arr [7]) (ValueSpec.arr [7]))

/-- The prepared state of a precomputed-SkyCoord sky matcher on
(`skyA`, `skyB`). -/
def skyPrepArr : SkyMatcher :=
  (((SkyMatcher.mk0 1 (CoordSpec.sky [((1 : ℚ), (1 : ℚ))])
      (CoordSpec.sky [((2 : ℚ), (2 : ℚ))])).get_values skyA skyB).toOption).getD
    (SkyMatcher.mk0 1 (CoordSpec.sky [((1 : ℚ), (1 : ℚ))]) (CoordSpec.sky [((2 : ℚ), (2 : ℚ))]))

/-- Witness for the amended C3: re-preparing the raw-array exact matcher
(resp. the precomputed-SkyCoord sky matcher) on (`dsB`, `dsB1`) (resp.
(`skyC`, `skyD`)) equals preparing the fresh matcher there. -/
theorem C3_witness :
    exPrepArr.get_values dsB dsB1 =
      (ExactMatcher.mk0 (ValueSpec.arr [7]) (ValueSpec.arr [7])).get_values dsB dsB1 ∧
    skyPrepArr.get_values skyC skyD =
      (SkyMatcher.mk0 1 (CoordSpec.sky [((1 : ℚ), (1 : ℚ))])
        (CoordSpec.sky [((2 : ℚ), (2 : ℚ))])).get_values skyC skyD := by
  constructor
  · exact C3_amended.1 [7] [7]
      (ExactMatcher.mk0 (ValueSpec.arr [7]) (ValueSpec.arr [7])) exPrepArr
      dsA dsA1 dsB dsB1 rfl rfl (by decide)
  · exact C3_amended.2 [((1 : ℚ), (1 : ℚ))] [((2 : ℚ), (2 : ℚ))]
      (SkyMatcher.mk0 1 (CoordSpec.sky [((1 : ℚ), (1 : ℚ))])
        (CoordSpec.sky [((2 : ℚ), (2 : ℚ))])) skyPrepArr
      skyA skyB skyC skyD rfl rfl (by decide)

theorem npBoolGet_ok_of {α : Type} {xs : List α} {m : List Bool}
    (h : xs.length = m.length) : npBoolGet xs m = .ok (boolGet xs m) := by
  unfold npBoolGet
  rw [if_pos h]

theorem npBoolGet_err {α : Type} {xs : List α} {m : List Bool}
    (h : ¬ xs.length = m.length) : npBoolGet xs m = .error .indexError := by
  unfold npBoolGet
  rw [if_neg h]

/-- On an unmasked table the loop body succeeds with an all-false mask and
the full index range, for every value specification, with no length
validation of a raw array against the table length. -/
theorem exactMissingOf_unmasked {α : Type} (v : ValueSpec α) (d : Dataset α)
    (hm : d.masked = false) :
    exactMissingOf v d = .ok (List.replicate d.N false, List.range d.N) := by
  unfold exactMissingOf exactMissing0
  rw [hm, if_neg Bool.false_ne_true, except_bind_ok]
  have h1 : npBoolGet (List.range d.N) (notMask (List.replicate d.N false))
      = .ok (List.range d.N) := by
    have h2 : notMask (List.replicate d.N false) = List.replicate d.N true := by
      simp [notMask]
    rw [h2]
    have h3 := boolGet_all_true (List.range d.N)
    simp only [List.length_range] at h3
    rw [npBoolGet_ok_of (by simp), h3]
  rw [h1, except_bind_ok]
  rfl

/-- Prepare with raw-array specifications on unmasked tables always
succeeds, whatever the array lengths. -/
theorem exact_get_values_arr {α : Type} (xs xs1 : List α) (s₀ : ExactMatcher α)
    (data data1 : Dataset α) (hv : s₀.value = .arr xs) (hv1 : s₀.value1 = .arr xs1)
    (hm : data.masked = false) (hm1 : data1.masked = false) :
    s₀.get_values data data1 = .ok ⟨.arr xs, .arr xs1,
      List.replicate data.N false, List.replicate data1.N false,
      List.range data.N, List.range data1.N⟩ := by
  unfold ExactMatcher.get_values
  rw [hv, hv1]
  rw [show resolveValue (ValueSpec.arr xs) data = .ok (ValueSpec.arr xs) from rfl,
    except_bind_ok]
  rw [show resolveValue (ValueSpec.arr xs1) data1 = .ok (ValueSpec.arr xs1) from rfl,
    except_bind_ok]
  rw [exactMissingOf_unmasked _ _ hm, except_bind_ok]
  rw [exactMissingOf_unmasked _ _ hm1, except_bind_ok]
  rfl

/-- Matching a raw-array state whose array lengths do not fit the masks
fails with an IndexError-kind condition (numpy boolean indexing). -/
theorem doMatch_arr_mismatch {α : Type} [inst : DecidableEq α] (xs xs1 : List α)
    (m m1 : List Bool) (nm nm1 : List Nat)
    (h : xs1.length ≠ m1.length ∨ xs.length ≠ m.length) :
    (ExactMatcher.mk (ValueSpec.arr xs) (ValueSpec.arr xs1) m m1 nm nm1).doMatch
      = .error .indexError := by
  unfold ExactMatcher.doMatch
  rw [show specValues (ExactMatcher.mk (ValueSpec.arr xs) (ValueSpec.arr xs1)
      m m1 nm nm1).value1 = .ok xs1 from rfl, except_bind_ok]
  rw [show specValues (ExactMatcher.mk (ValueSpec.arr xs) (ValueSpec.arr xs1)
      m m1 nm nm1).value = .ok xs from rfl, except_bind_ok]
  by_cases h1 : xs1.length = (notMask m1).length
  · have h1m : xs1.length = m1.length := by rwa [notMask_length] at h1
    have h2 : ¬ xs.length = (notMask m).length := by
      rw [notMask_length]
      rcases h with hA | hB
      · exact absurd h1m hA
      · exact hB
    rw [npBoolGet_ok_of h1, except_bind_ok, npBoolGet_err h2, except_bind_error]
  · rw [npBoolGet_err h1, except_bind_error]

/-- Claim C4 is false on the code: supplying `value` as a raw length-1
array against the length-3 unmasked table `exK` does not make prepare fail
— get_values succeeds with an all-false mask of the table's length (no
ValueError-kind condition, no length validation at all); the mismatch only
surfaces later, when match() attempts the boolean indexing and fails with
an IndexError-kind condition. -/
theorem C4_counterexample :
    (([5] : List Int).length ≠ exK.N) ∧
    (ExactMatcher.mk0 (ValueSpec.arr ([5] : List Int))
      (ValueSpec.arr [3, 1, 5])).get_values exK exK1
      = .ok ⟨ValueSpec.arr [5], ValueSpec.arr [3, 1, 5],
          List.replicate 3 false, List.replicate 3 false,
          List.range 3, List.range 3⟩ ∧
    (ExactMatcher.mk (ValueSpec.arr ([5] : List Int)) (ValueSpec.arr [3, 1, 5])
      (List.replicate 3 false) (List.replicate 3 false)
      (List.range 3) (List.range 3)).doMatch = .error .indexError := by
  exact ⟨by decide, by decide, by decide⟩

/-- C4 amended: the prepare step performs no length validation of raw
arrays — on unmasked datasets it succeeds for arrays of any length — and a
length mismatch instead makes the later match() fail with an
IndexError-kind condition (not a ValueError at prepare). -/
theorem C4_amended :
    ∀ {α : Type} [inst : DecidableEq α] (xs xs1 : List α) (s₀ : ExactMatcher α)
      (data data1 : Dataset α),
      s₀.value = .arr xs → s₀.value1 = .arr xs1 →
      data.masked = false → data1.masked = false →
      ∃ s, s₀.get_values data data1 = .ok s ∧
        (xs.length ≠ data.N ∨ xs1.length ≠ data1.N → s.doMatch = .error .indexError) := by
  intro α inst xs xs1 s₀ data data1 hv hv1 hm hm1
  refine ⟨_, exact_get_values_arr xs xs1 s₀ data data1 hv hv1 hm hm1, ?_⟩
  intro hmis
  apply doMatch_arr_mismatch
  rcases hmis with hA | hB
  · exact Or.inr (by simpa using hA)
  · exact Or.inl (by simpa using hB)

/-- The state prepared with a mismatched raw array on (`exK`, `exK1`). -/
def exPrepMis : ExactMatcher Int :=
  (((ExactMatcher.mk0 (ValueSpec.arr [5]) (ValueSpec.arr [3, 1, 5])).get_values
    exK exK1).toOption).getD (ExactMatcher.mk0 (ValueSpec.arr [5]) (ValueSpec.arr [3, 1, 5]))

/-- Witness for the amended C4: the length-1 raw array against the
length-3 table `exK` — prepare succeeds, match fails with IndexError. -/
theorem C4_witness :
    (ExactMatcher.mk0 (ValueSpec.arr ([5] : List Int))
      (ValueSpec.arr [3, 1, 5])).get_values exK exK1 = .ok exPrepMis ∧
    exPrepMis.doMatch = .error .indexError := by
  obtain ⟨s, h1, h2⟩ := C4_amended ([5] : List Int) [3, 1, 5]
    (ExactMatcher.mk0 (ValueSpec.arr [5]) (ValueSpec.arr [3, 1, 5])) exK exK1
    rfl rfl rfl rfl
  have hs : s = exPrepMis := by
    have h3 : (ExactMatcher.mk0 (ValueSpec.arr ([5] : List Int))
        (ValueSpec.arr [3, 1, 5])).get_values exK exK1 = .ok exPrepMis := by decide
    rw [h1] at h3
    injection h3
  subst hs
  exact ⟨h1, h2 (by decide)⟩

end AstroTable
